import Mathlib

/-!
# packetlogger2: a shallow embedding of the Hercules packet-logger plugin

The plugin (`src/4144/packetlogger2/packetlogger2.c`) wraps the per-connection
read function of the host, hooks the outbound pre-write validation and the
socket close, and appends every captured payload to a per-connection text file.

Modelling conventions.

* C pointers into the session table become values that are written back:
  a function that takes `struct SessionExt *data` returns the updated record.
* The C library is modelled by a trace of the calls made on `FILE*` streams
  (`fopen`, `fprintf`, `fflush`, `fclose`), oldest first.  Whether the next
  `fopen` succeeds is an input of the world, like the clock.  `open_file` prints
  through the result of `fopen` without testing it, so after a failed `fopen`
  the call does not return (the process crashes in `fprintf`); such a call has
  the result `none`.
* The wall clock is an input stored in the world.
* Bytes are natural numbers; the cast to `unsigned char` is `% 256`.
* The receive buffer is seen through its pointer: `rdata k` is the byte
  `rdata[k]`, and a negative `k` is memory below the buffer.
* The host macros `RFIFOW`, `WFIFOP` and `session_is_valid` live in the host
  header `common/socket.h`; they are written out here as that header has them.
-/

set_option linter.unusedVariables false
set_option maxRecDepth 100000

namespace PacketLogger2

/-! ## Data model -/

/-- The server role the plugin was loaded into (`SERVER_TYPE`). -/
inductive ServerType where
  | LOGIN
  | CHAR
  | MAP
  | UNKNOWN
  deriving DecidableEq, Repr

/-- Build-time constants and the server role. -/
structure Config where
  SERVER_TYPE : ServerType
  PACKETVER : Int
  PACKETTYPE : String

/-- What the C library answers when asked for the time: `gettimeofday`
(`tv_sec`, `tv_usec`), `time` (`time1`) and the local time of `time1` printed by
`strftime` with `%Y-%m-%d_%H-%M-%S` (`tbuf`). -/
structure Clock where
  tv_sec : Int
  tv_usec : Int
  time1 : Int
  tbuf : String

/-- The host-owned fields of `struct socket_data` that the plugin reads.
`rdata k` is the byte `rdata[k]` of the memory around the receive buffer: the
buffer starts at index `0` and holds `rdata_size` bytes of data, a negative
index is memory below the buffer. -/
structure HostData where
  validate : Bool
  rdata : Int → Nat
  rdata_size : Nat
  rdata_pos : Nat
  wdata : List Nat
  wdata_size : Nat

/-- A read function of the host, `int (*)(int fd)`: it returns the length read
(or a value `≤ 0`) and may change the host-owned fields of the session. -/
abbrev HostRecv := Int → HostData → Int × HostData

/-- The values a `func_recv` slot can hold: a function of the host, or the
wrapper `recv_func_proxy` of the plugin. -/
inductive RecvFn where
  | host (f : HostRecv)
  | recv_func_proxy

/-- A `FILE *`; `none` is `NULL`. -/
abbrev FilePtr := Option Nat

/-- The record `struct SessionExt` that the plugin attaches to a session. -/
structure SessionExt where
  enabled : Bool
  triggered : Bool
  file : FilePtr
  recv_func : RecvFn

/-- One entry of the host session table: host fields, the installed read
function, and the plugin slot read by `getFromSession(session, 0)`. -/
structure Session where
  host : HostData
  func_recv : RecvFn
  hdata : Option SessionExt

/-- One call of the C library on a stream. -/
inductive IOEvent where
  | fopen (file : FilePtr) (path : String)
  | fprintf (file : FilePtr) (text : String)
  | fflush (file : FilePtr)
  | fclose (file : FilePtr)
  deriving DecidableEq, Repr

/-- The state the hooks run in: the session table `sockt->session`, the clock,
whether the next `fopen` succeeds, the trace of stream calls and the console
diagnostics. -/
structure World where
  session : Int → Option Session
  clock : Clock
  fopen_ok : Bool
  trace : List IOEvent
  console : List String

/-! ## Host helpers -/

/-- Host function `sockt->session_is_valid(fd)` (host file `common/socket.c`,
not under `src/`): a positive descriptor with an entry in the session table. -/
def session_is_valid (w : World) (fd : Int) : Bool :=
  decide (0 < fd) && (w.session fd).isSome

/-- Store a session back at `sockt->session[fd]`. -/
def setSession (w : World) (fd : Int) (s : Session) : World :=
  { w with session := fun k => if k = fd then some s else w.session k }

/-- The plugin record of connection `fd`, when there is one. -/
def extOf (w : World) (fd : Int) : Option SessionExt :=
  (w.session fd).bind Session.hdata

/-- Memory read through a pointer: byte `i` after the address `off` of the
memory `mem`. -/
def memAt (mem : Int → Nat) (off : Int) : Nat → Nat :=
  fun i => mem (off + i)

/-- Memory read through a pointer into the outbound buffer: byte `i` after
offset `off`. -/
def bytesAt (mem : List Nat) (off : Nat) : Nat → Nat :=
  fun i => mem.getD (off + i) 0

/-- Host macro `RFIFOP(fd, pos)` (host header `common/socket.h`, not under
`src/`): the pointer `rdata + rdata_pos + pos`. -/
def RFIFOP (h : HostData) (pos : Nat) : Nat → Nat :=
  memAt h.rdata ((h.rdata_pos : Int) + pos)

/-- Host macro `RFIFOW(fd, pos)` (host header `common/socket.h`, not under
`src/`): the 16-bit word at `RFIFOP(fd, pos)`, little-endian as on the hosts the
server runs on.  It depends on the session only, not on the length just read. -/
def RFIFOW (h : HostData) (pos : Nat) : Nat :=
  RFIFOP h pos 0 % 256 + 256 * (RFIFOP h pos 1 % 256)

/-- Host macro `WFIFOP(fd, pos)` (host header `common/socket.h`, not under
`src/`): the pointer `wdata + wdata_size + pos`, where the bytes about to be sent
have been written. -/
def WFIFOP (h : HostData) (pos : Nat) : Nat → Nat :=
  bytesAt h.wdata (h.wdata_size + pos)

/-- Conversion of a `size_t` argument to the `int` parameter of `packet_log`. -/
def size_t_to_int (n : Nat) : Int :=
  if n % 2 ^ 32 < 2 ^ 31 then ((n % 2 ^ 32 : Nat) : Int) else ((n % 2 ^ 32 : Nat) : Int) - 2 ^ 32

/-! ## Formatting -/

/-- The sixteen lowercase hexadecimal digits. -/
def hexDigits : List Char :=
  "0123456789abcdef".data

/-- The digit of a value below sixteen. -/
def hexDigit (n : Nat) : Char :=
  hexDigits.getD n '0'

/-- The two characters printed by `%02x` for an `unsigned char`. -/
def fmt02x (b : Nat) : List Char :=
  [hexDigit (b / 16), hexDigit (b % 16)]

/-- The role tag used in the file name. -/
def typeName : ServerType → String
  | .LOGIN => "login"
  | .CHAR => "char"
  | .MAP => "map"
  | .UNKNOWN => "unknown"

/-! ## The plugin -/

/-- The stream returned by the next successful `fopen`: streams are numbered in
the order they were opened. -/
def nextStream (tr : List IOEvent) : Nat :=
  tr.countP fun e => match e with
    | .fopen _ _ => true
    | _ => false

/-- The stream calls made by one run of `packet_log(file, buf, len, isSend)` at
clock `c`: the `#time` line, the direction line, one `%02x` per byte, the
newline, and the flush. -/
def packetEvents (c : Clock) (file : FilePtr) (buf : Nat → Nat) (len : Int) (isSend : Bool) :
    List IOEvent :=
  [IOEvent.fprintf file ("#time " ++ toString c.tv_sec ++ "." ++ toString c.tv_usec ++ "\n")]
    ++ [IOEvent.fprintf file (if isSend then "5252\n" else "5353\n")]
    ++ (List.range len.toNat).map
        (fun f => IOEvent.fprintf file (String.mk (fmt02x (buf f % 256))))
    ++ [IOEvent.fprintf file "\n", IOEvent.fflush file]

/-- C function `packet_log(file, buf, len, isSend)`. -/
def packet_log (w : World) (file : FilePtr) (buf : Nat → Nat) (len : Int) (isSend : Bool) :
    World :=
  { w with trace := w.trace ++ packetEvents w.clock file buf len isSend }

/-- The stream calls made by `open_file` when it creates the file: `fopen` of
`log/<role>_<PACKETVER>_<PACKETTYPE>_<time>.txt`, three header lines, a flush. -/
def headerEvents (cfg : Config) (c : Clock) (file : FilePtr) : List IOEvent :=
  [IOEvent.fopen file
      ("log/" ++ typeName cfg.SERVER_TYPE ++ "_" ++ toString cfg.PACKETVER ++ "_"
        ++ cfg.PACKETTYPE ++ "_" ++ c.tbuf ++ ".txt"),
    IOEvent.fprintf file "#format 2\n",
    IOEvent.fprintf file
      ("#packetversion " ++ toString cfg.PACKETVER ++ " " ++ cfg.PACKETTYPE ++ "\n"),
    IOEvent.fprintf file ("#time " ++ toString c.time1 ++ "\n"),
    IOEvent.fflush file]

/-- C function `open_file(data)`.  The result of `fopen` is not tested: when
`fopen` returns `NULL` the first `fprintf` goes through the null stream and the
call does not return (`none`). -/
def open_file (cfg : Config) (w : World) (data : SessionExt) : Option (World × SessionExt) :=
  match data.file with
  | some _ => some (w, data)
  | none =>
    if w.fopen_ok then
      let file : FilePtr := some (nextStream w.trace)
      some ({ w with trace := w.trace ++ headerEvents cfg w.clock file },
        { data with file := file })
    else none

/-- C function `socket_validateWfifo_pre(fdPtr, lenPtr)`, the outbound
pre-write hook; `none` when the call does not return. -/
def socket_validateWfifo_pre (cfg : Config) (w : World) (fd : Int) (len : Nat) :
    Option World :=
  if !session_is_valid w fd then some w
  else if len = 0 then some w
  else
    match w.session fd with
    | none => some w
    | some s =>
      match s.hdata with
      | none => some w
      | some data =>
        if data.enabled = false || s.host.validate = false then some w
        else
          match open_file cfg w data with
          | none => none
          | some r =>
            some (setSession
              (packet_log r.1 r.2.file (WFIFOP s.host 0) (size_t_to_int len) true)
              fd { s with hdata := some r.2 })

/-- C function `recv_func_proxy(fd)`, the inbound read wrapper.  The result is
`none` when the call does not return: the saved read function is the wrapper
itself, which would call itself without end, or `open_file` does not return. -/
def recv_func_proxy (cfg : Config) (w : World) (fd : Int) : Option (Int × World) :=
  if !session_is_valid w fd then some (0, w)
  else
    match w.session fd with
    | none => some (0, w)
    | some s =>
      match s.hdata with
      | none => some (0, { w with console := w.console ++ ["nullpo: data"] })
      | some data =>
        match data.recv_func with
        | .recv_func_proxy => none
        | .host f =>
          let len := (f fd s.host).1
          let s1 : Session := { s with host := (f fd s.host).2 }
          let w1 := setSession w fd s1
          if len ≤ 0 || data.enabled = false || s1.host.validate = false then some (len, w1)
          else if data.triggered = false && (cfg.SERVER_TYPE = ServerType.LOGIN
              && RFIFOW s1.host 0 = 0x2710) then
            some (len, setSession w1 fd { s1 with hdata := some { data with enabled := false } })
          else if data.triggered = false && (cfg.SERVER_TYPE = ServerType.CHAR
              && RFIFOW s1.host 0 = 0x2af8) then
            some (len, setSession w1 fd { s1 with hdata := some { data with enabled := false } })
          else
            let data1 : SessionExt := { data with triggered := true }
            let buf := memAt s1.host.rdata ((s1.host.rdata_size : Int) - len)
            match open_file cfg w1 data1 with
            | none => none
            | some r =>
              some (len, setSession (packet_log r.1 r.2.file buf len false) fd
                { s1 with hdata := some r.2 })

/-- C function `sockt_connect_client_post(retVal, listen_fd)`, the post-connect
hook.  `CREATE` returns zeroed memory, so a new record has `triggered = false`
and `file = NULL`. -/
def sockt_connect_client_post (w : World) (retVal listen_fd : Int) : Int × World :=
  let fd := retVal
  if retVal < 0 || !session_is_valid w fd then (retVal, w)
  else
    match w.session fd with
    | none => (retVal, w)
    | some s =>
      match s.hdata with
      | none =>
        let data : SessionExt :=
          { enabled := true, triggered := false, file := none, recv_func := s.func_recv }
        let w1 := { w with console := w.console ++ ["Enable logging for fd " ++ toString fd ++ "\n"] }
        (retVal, setSession w1 fd { s with func_recv := RecvFn.recv_func_proxy, hdata := some data })
      | some _ =>
        (retVal, { w with console := w.console ++ ["Double logging for fd " ++ toString fd ++ "\n"] })

/-- C function `socket_close_pre(fdPtr)`, the pre-close hook. -/
def socket_close_pre (w : World) (fd : Int) : World :=
  if !session_is_valid w fd then w
  else
    match w.session fd with
    | none => w
    | some s =>
      match s.hdata with
      | none => w
      | some data =>
        if data.enabled = false then w
        else
          match data.file with
          | none => w
          | some h =>
            setSession { w with trace := w.trace ++ [IOEvent.fclose (some h)] } fd
              { s with hdata := some { data with file := none } }

/-! ## Sequences of hook calls on one connection -/

/-- The plugin functions the host calls for a connection. -/
inductive Call where
  | connect_client_post (listen_fd : Int)
  | recv
  | validateWfifo (len : Nat)
  | close

/-- One hook call as the host makes it.  Between two calls the host may have
changed its own fields of the session, the clock may have moved and the file
system may have changed, so every call carries the host fields, the clock and
the outcome of `fopen` that it finds. -/
structure Event where
  host : HostData
  clock : Clock
  fopen_ok : Bool
  call : Call

/-- The activity before a call: new clock, new outcome of `fopen`, new host
fields of session `fd`. -/
def hostSets (w : World) (fd : Int) (e : Event) : World :=
  { w with
    clock := e.clock
    fopen_ok := e.fopen_ok
    session := fun k =>
      if k = fd then (w.session fd).map (fun s => { s with host := e.host }) else w.session k }

/-- One hook call on connection `fd`; `none` when the call does not return. -/
def step (cfg : Config) (fd : Int) (w : World) (e : Event) : Option World :=
  match e.call with
  | .connect_client_post listen_fd =>
    some (sockt_connect_client_post (hostSets w fd e) fd listen_fd).2
  | .recv => (recv_func_proxy cfg (hostSets w fd e) fd).map Prod.snd
  | .validateWfifo len => socket_validateWfifo_pre cfg (hostSets w fd e) fd len
  | .close => some (socket_close_pre (hostSets w fd e) fd)

/-- A sequence of hook calls on connection `fd`. -/
def run (cfg : Config) (fd : Int) : World → List Event → Option World
  | w, [] => some w
  | w, e :: es => (step cfg fd w e).bind fun w1 => run cfg fd w1 es

/-- Whether a read-function slot holds a function of the host. -/
def RecvFn.isHost : RecvFn → Bool
  | .host _ => true
  | .recv_func_proxy => false

/-- The read function that the wrapper of connection `fd` calls is a function of
the host: the saved one when a record is attached, the installed one (which the
post-connect hook will save) when none is. -/
def wellFormed (w : World) (fd : Int) : Bool :=
  match w.session fd with
  | none => true
  | some s =>
    match s.hdata with
    | none => s.func_recv.isHost
    | some d => d.recv_func.isHost

/-- Number of `fopen` calls in a trace. -/
def opens (tr : List IOEvent) : Nat :=
  nextStream tr

/-- Number of `fclose` calls in a trace. -/
def closes (tr : List IOEvent) : Nat :=
  tr.countP fun e => match e with
    | .fclose _ => true
    | _ => false

/-- The test the wrapper makes on a read that has not been triggered yet: the
role is login and the word at the read position is `0x2710`, or the role is char
and that word is `0x2af8`. -/
def optOut (cfg : Config) (h : HostData) : Bool :=
  (decide (cfg.SERVER_TYPE = ServerType.LOGIN) && decide (RFIFOW h 0 = 0x2710)) ||
  (decide (cfg.SERVER_TYPE = ServerType.CHAR) && decide (RFIFOW h 0 = 0x2af8))

/-- The wrapper returns at once: the read failed, capture is off, or the
connection is not validated. -/
def passes (d : SessionExt) (r : Int × HostData) : Bool :=
  decide (r.1 ≤ 0) || !d.enabled || !r.2.validate

/-! ## The capture record and the trace along a sequence of calls -/

/-- What `open_file` followed by `packet_log` does to the capture record and to
the trace; `none` when `open_file` does not return. -/
def logged (cfg : Config) (ok : Bool) (c : Clock) (d : SessionExt) (tr : List IOEvent)
    (buf : Nat → Nat) (len : Int) (isSend : Bool) : Option (SessionExt × List IOEvent) :=
  match d.file with
  | some h => some (d, tr ++ packetEvents c (some h) buf len isSend)
  | none =>
    if ok then
      some ({ d with file := some (nextStream tr) },
        (tr ++ headerEvents cfg c (some (nextStream tr)))
          ++ packetEvents c (some (nextStream tr)) buf len isSend)
    else none

/-- What one hook call does to the capture record `d` of a valid connection
whose saved read function is `f`, and to the trace `tr`; `none` when the call
does not return. -/
def capture (cfg : Config) (f : HostRecv) (fd : Int) (e : Event) (d : SessionExt)
    (tr : List IOEvent) : Option (SessionExt × List IOEvent) :=
  match e.call with
  | .connect_client_post _ => some (d, tr)
  | .recv =>
    if passes d (f fd e.host) then some (d, tr)
    else if !d.triggered && optOut cfg (f fd e.host).2 then
      some ({ d with enabled := false }, tr)
    else
      logged cfg e.fopen_ok e.clock { d with triggered := true } tr
        (memAt (f fd e.host).2.rdata (((f fd e.host).2.rdata_size : Int) - (f fd e.host).1))
        (f fd e.host).1 false
  | .validateWfifo len =>
    if len = 0 ∨ d.enabled = false ∨ e.host.validate = false then some (d, tr)
    else logged cfg e.fopen_ok e.clock d tr (WFIFOP e.host 0) (size_t_to_int len) true
  | .close =>
    if d.enabled = false then some (d, tr)
    else
      match d.file with
      | none => some (d, tr)
      | some h => some ({ d with file := none }, tr ++ [IOEvent.fclose (some h)])

/-- The capture record and the trace after a sequence of hook calls. -/
def captures (cfg : Config) (f : HostRecv) (fd : Int) :
    List Event → SessionExt × List IOEvent → Option (SessionExt × List IOEvent)
  | [], p => some p
  | e :: es, p => (capture cfg f fd e p.1 p.2).bind (captures cfg f fd es)

/-- Connection `fd` is valid and carries the capture record `d`, whose saved
read function is the host function `f`. -/
def Attached (w : World) (fd : Int) (f : HostRecv) (d : SessionExt) : Prop :=
  0 < fd ∧ ∃ s, w.session fd = some s ∧ s.hdata = some d ∧ d.recv_func = RecvFn.host f

/-- Connection `fd` is valid and not instrumented yet; its installed read
function is the host function `f`. -/
def Detached (w : World) (fd : Int) (f : HostRecv) : Prop :=
  0 < fd ∧ ∃ s, w.session fd = some s ∧ s.hdata = none ∧ s.func_recv = RecvFn.host f

/-- One if the record holds an open stream, zero otherwise. -/
def holds (d : SessionExt) : Nat :=
  if d.file.isSome then 1 else 0

/-- One if connection `fd` has a capture record holding an open stream. -/
def openNow (w : World) (fd : Int) : Nat :=
  match extOf w fd with
  | some d => holds d
  | none => 0

/-- The close hook finds capture enabled with a file open on a valid
connection. -/
def closesFile (w : World) (fd : Int) : Bool :=
  session_is_valid w fd &&
    match extOf w fd with
    | some d => d.enabled && d.file.isSome
    | none => false

/-! ## Reading a log file back -/

/-- The characters one stream call writes to stream `h`. -/
def textOf (h : FilePtr) : IOEvent → List Char
  | .fprintf g t => if g = h then t.data else []
  | _ => []

/-- The text written to stream `h` over a trace. -/
def fileText (tr : List IOEvent) (h : FilePtr) : String :=
  String.mk (tr.flatMap (textOf h))

/-- The value of a lowercase hexadecimal digit. -/
def hexVal (c : Char) : Option Nat :=
  if hexDigits.indexOf c < 16 then some (hexDigits.indexOf c) else none

/-- Decode a line of two-digit hexadecimal pairs into bytes. -/
def decodeHex : List Char → Option (List Nat)
  | [] => some []
  | [_] => none
  | a :: b :: rest =>
    match hexVal a, hexVal b, decodeHex rest with
    | some x, some y, some r => some ((16 * x + y) :: r)
    | _, _, _ => none

/-! ## Reads, writes and records as the claims describe them -/

/-- The little-endian 16-bit word made of the bytes at offsets `off` and
`off + 1` of the memory `mem`. -/
def wordAt (mem : Int → Nat) (off : Int) : Nat :=
  mem off % 256 + 256 * (mem (off + 1) % 256)

/-- The data in the receive buffer: its first `rdata_size` bytes. -/
def recvBuffer (h : HostData) : List Nat :=
  (List.range h.rdata_size).map fun (i : Nat) => h.rdata (i : Int) % 256

/-- The last `n` elements of a list. -/
def lastBytes (n : Nat) (l : List Nat) : List Nat :=
  l.drop (l.length - n)

/-- A validated inbound read of positive length: the event calls the wrapper
and the host read function `f` returns a positive length on a validated
session. -/
def qualRead (f : HostRecv) (fd : Int) (e : Event) : Bool :=
  match e.call with
  | .recv => (f fd e.host).2.validate && decide (0 < (f fd e.host).1)
  | _ => false

/-- The bytes a call captures: for a read that returned `len`, the last `len`
bytes of the data in the receive buffer; for a pre-write of `len` bytes, the
`len` bytes at the write position `wdata + wdata_size` of the outbound
buffer. -/
def payloadOf (f : HostRecv) (fd : Int) (e : Event) : List Nat :=
  match e.call with
  | .recv => lastBytes (f fd e.host).1.toNat (recvBuffer (f fd e.host).2)
  | .validateWfifo len =>
    (List.range len).map fun i => e.host.wdata.getD (e.host.wdata_size + i) 0 % 256
  | _ => []

/-- A call that is captured on an enabled record: a validated pre-write of
non-zero length, or a validated read of positive length that is not taken for
an opt-out packet (the record is triggered already, or the word at the read
position is not the opt-out code of the role). -/
def capturedCall (cfg : Config) (f : HostRecv) (fd : Int) (d : SessionExt) (e : Event) :
    Bool :=
  match e.call with
  | .recv => qualRead f fd e && (d.triggered || !optOut cfg (f fd e.host).2)
  | .validateWfifo len => e.host.validate && decide (len ≠ 0)
  | _ => false

/-! ## Concrete inputs used to evaluate the code -/

/-- A clock reading. -/
def exClock : Clock :=
  { tv_sec := 1600000000, tv_usec := 123456, time1 := 1600000000, tbuf := "2020-09-13_12-26-40" }

/-- A world with no session and an empty trace. -/
def emptyWorld : World :=
  { session := fun _ => none, clock := exClock, fopen_ok := true, trace := [], console := [] }

/-- The login-server configuration used in the examples. -/
def loginCfg : Config :=
  { SERVER_TYPE := ServerType.LOGIN, PACKETVER := 20200101, PACKETTYPE := "main" }

/-- The memory around a buffer that holds the bytes `buf`; everything else
reads as zero. -/
def memOf (buf : List Nat) : Int → Nat :=
  fun k => if k < 0 then 0 else buf.getD k.toNat 0

/-- A host read function that receives the bytes `bs`: it stores them after the
`rdata_size` bytes already in the receive buffer and returns their number. -/
def readBytes (bs : List Nat) : HostRecv :=
  fun _ h =>
    ((bs.length : Int),
      { h with
        rdata := fun k =>
          if (h.rdata_size : Int) ≤ k ∧ k < (h.rdata_size : Int) + bs.length then
            bs.getD (k - h.rdata_size).toNat 0
          else h.rdata k
        rdata_size := h.rdata_size + bs.length })

/-- A host read function that receives `first` when the receive buffer is empty
and `next` otherwise. -/
def readFirstThen (first next : List Nat) : HostRecv :=
  fun fd h => if h.rdata_size = 0 then readBytes first fd h else readBytes next fd h

/-- Host fields of a validated session with the given buffers; nothing of the
receive buffer has been consumed. -/
def hostWith (rdata wdata : List Nat) : HostData :=
  { validate := true, rdata := memOf rdata, rdata_size := rdata.length, rdata_pos := 0,
    wdata := wdata, wdata_size := 0 }

/-- A world whose only session is descriptor `5`, as the host creates it: no
capture record, read function `readBytes bs`. -/
def freshWorld (bs : List Nat) : World :=
  { session := fun k =>
      if k = 5 then
        some { host := hostWith [] [], func_recv := RecvFn.host (readBytes bs), hdata := none }
      else none
    clock := exClock, fopen_ok := true, trace := [], console := [] }

/-- The session `5` of `freshWorld bs`. -/
def freshSession (bs : List Nat) : Session :=
  { host := hostWith [] [], func_recv := RecvFn.host (readBytes bs), hdata := none }

/-- A fresh capture record as the post-connect hook creates it, saving `f`. -/
def freshExt (f : RecvFn) : SessionExt :=
  { enabled := true, triggered := false, file := none, recv_func := f }

/-- A login-server world whose session `5` is instrumented and validated, with
the two bytes `01 02` received earlier and not yet consumed; the next read
delivers `10 27`. -/
def staleWorld : World :=
  { session := fun k =>
      if k = 5 then
        some { host := hostWith [0x01, 0x02] [],
               func_recv := RecvFn.recv_func_proxy,
               hdata := some (freshExt (RecvFn.host (readBytes [0x10, 0x27]))) }
      else none
    clock := exClock, fopen_ok := true, trace := [], console := [] }

/-- The session `5` of `staleWorld`. -/
def staleSession : Session :=
  { host := hostWith [0x01, 0x02] [],
    func_recv := RecvFn.recv_func_proxy,
    hdata := some (freshExt (RecvFn.host (readBytes [0x10, 0x27]))) }

/-- A world whose session `5` is valid and validated with an empty receive
buffer and carries the capture record `d`; `fopen` succeeds iff `ok`. -/
def worldWith (d : SessionExt) (ok : Bool) : World :=
  { session := fun k =>
      if k = 5 then
        some { host := hostWith [] [], func_recv := RecvFn.recv_func_proxy, hdata := some d }
      else none
    clock := exClock, fopen_ok := ok, trace := [], console := [] }

/-- The session `5` of `worldWith d ok`. -/
def sessionWith (d : SessionExt) : Session :=
  { host := hostWith [] [], func_recv := RecvFn.recv_func_proxy, hdata := some d }

/-- The call `call` on a session with host fields `h`, at clock `exClock`, with
a working `fopen`. -/
def eventOn (h : HostData) (call : Call) : Event :=
  { host := h, clock := exClock, fopen_ok := true, call := call }

/-- The post-connect call on an empty validated session. -/
def connectEvent : Event :=
  eventOn (hostWith [] []) (Call.connect_client_post 3)

/-- A read on a validated session whose receive buffer is empty. -/
def readEvent : Event :=
  eventOn (hostWith [] []) Call.recv

/-- A pre-write of the two bytes `AB CD` on a validated session. -/
def writeEvent : Event :=
  eventOn (hostWith [] [0xAB, 0xCD]) (Call.validateWfifo 2)

/-- The pre-close call on a validated session. -/
def closeEvent : Event :=
  eventOn (hostWith [] []) Call.close

/-- The failing run for the close hook on a login server: the connection is
accepted, two bytes `AB CD` are written out (which opens the log file), the
first read delivers the opt-out packet `10 27`, and the connection is closed. -/
def leakRun : List Event :=
  [ connectEvent, writeEvent, readEvent, eventOn (hostWith [0x10, 0x27] []) Call.close ]

/-- A run that closes the log file and then writes again: accept, write `AB CD`,
close, write `AB CD`. -/
def reopenRun : List Event :=
  [ connectEvent, writeEvent, eventOn (hostWith [] [0xAB, 0xCD]) Call.close, writeEvent ]

/-- A capture record that is enabled and triggered and holds stream `0`, as
after a first captured read. -/
def triggeredExt (f : RecvFn) : SessionExt :=
  { enabled := true, triggered := true, file := some 0, recv_func := f }

/-- A capture record that an opt-out packet has disabled. -/
def disabledExt (f : RecvFn) : SessionExt :=
  { enabled := false, triggered := false, file := none, recv_func := f }

/-- A capture record whose file the close hook has closed: still enabled and
triggered, no stream. -/
def closedExt (f : RecvFn) : SessionExt :=
  { enabled := true, triggered := true, file := none, recv_func := f }

/-- A world whose only session is descriptor `5`, as the host creates it, with
the host read function `f`. -/
def freshWorldOf (f : HostRecv) : World :=
  { session := fun k =>
      if k = 5 then some { host := hostWith [] [], func_recv := RecvFn.host f, hdata := none }
      else none
    clock := exClock, fopen_ok := true, trace := [], console := [] }

/-- The session `5` of `freshWorldOf f`. -/
def freshSessionOf (f : HostRecv) : Session :=
  { host := hostWith [] [], func_recv := RecvFn.host f, hdata := none }

/-- A read on a session that is not validated and whose receive buffer is
empty. -/
def unvalidatedReadEvent : Event :=
  eventOn { hostWith [] [] with validate := false } Call.recv

/-- A run on which the first validated read does not start at the read
position: the connection is accepted, a read on the not yet validated session
leaves the bytes `stale` unconsumed, then the session is validated and read
again. -/
def staleRun (stale : List Nat) : List Event :=
  [ connectEvent, unvalidatedReadEvent, eventOn (hostWith stale []) Call.recv ]

/-- The bytes that the wrapper forwards to `packet_log` after a read of `len`
bytes: the `len` bytes from address `rdata + rdata_size - len` on. -/
def forwarded (h : HostData) (len : Int) : List Nat :=
  (List.range len.toNat).map fun i => memAt h.rdata ((h.rdata_size : Int) - len) i % 256

/-! ## Basic facts about the session table -/

theorem session_setSession_self (w : World) (fd : Int) (s : Session) :
    (setSession w fd s).session fd = some s := by
  simp [setSession]

theorem extOf_setSession_self (w : World) (fd : Int) (s : Session) :
    extOf (setSession w fd s) fd = s.hdata := by
  simp [extOf, setSession]

theorem setSession_setSession (w : World) (fd : Int) (s t : Session) :
    setSession (setSession w fd s) fd t = setSession w fd t := by
  simp only [setSession]
  congr 1
  funext k
  by_cases hk : k = fd <;> simp [hk]

theorem valid_of_session (w : World) (fd : Int) (s : Session) (hfd : 0 < fd)
    (hs : w.session fd = some s) : session_is_valid w fd = true := by
  simp [session_is_valid, hfd, hs]

theorem hostSets_session_self (w : World) (fd : Int) (e : Event) (s : Session)
    (hs : w.session fd = some s) :
    (hostSets w fd e).session fd = some { s with host := e.host } := by
  simp [hostSets, hs]

theorem extOf_hostSets (w : World) (fd : Int) (e : Event) :
    extOf (hostSets w fd e) fd = extOf w fd := by
  unfold extOf hostSets
  cases hs : w.session fd <;> simp [hs]

theorem extOf_attached (w : World) (fd : Int) (f : HostRecv) (d : SessionExt)
    (h : Attached w fd f d) : extOf w fd = some d := by
  obtain ⟨_, s, hs, hd, _⟩ := h
  simp [extOf, hs, hd]

/-! ## The branches of the read wrapper -/

theorem passes_true_iff (d : SessionExt) (r : Int × HostData) :
    passes d r = true ↔
      (decide (r.1 ≤ 0) || decide (d.enabled = false) || decide (r.2.validate = false)) = true := by
  cases hd : d.enabled <;> cases hv : r.2.validate <;> simp [passes, hd, hv]

theorem passes_false_iff (d : SessionExt) (r : Int × HostData) :
    passes d r = false ↔
      (decide (r.1 ≤ 0) || decide (d.enabled = false) || decide (r.2.validate = false)) = false := by
  cases hd : d.enabled <;> cases hv : r.2.validate <;> simp [passes, hd, hv]

theorem passes_false_of (d : SessionExt) (r : Int × HostData) (hen : d.enabled = true)
    (hv : r.2.validate = true) (hl : 0 < r.1) : passes d r = false := by
  unfold passes
  have : ¬ r.1 ≤ 0 := by omega
  simp [this, hen, hv]

theorem recv_early (cfg : Config) (w : World) (fd : Int) (s : Session)
    (d : SessionExt) (f : HostRecv)
    (hfd : session_is_valid w fd = true) (hs : w.session fd = some s)
    (hd : s.hdata = some d) (hf : d.recv_func = RecvFn.host f)
    (hp : passes d (f fd s.host) = true) :
    recv_func_proxy cfg w fd
      = some ((f fd s.host).1, setSession w fd { s with host := (f fd s.host).2 }) := by
  have hc := (passes_true_iff d (f fd s.host)).1 hp
  simp only [recv_func_proxy, hfd, hs, hd, hf, Bool.not_true, Bool.false_eq_true, if_false]
  rw [if_pos hc]

theorem recv_optOut (cfg : Config) (w : World) (fd : Int) (s : Session)
    (d : SessionExt) (f : HostRecv)
    (hfd : session_is_valid w fd = true) (hs : w.session fd = some s)
    (hd : s.hdata = some d) (hf : d.recv_func = RecvFn.host f)
    (hp : passes d (f fd s.host) = false) (ht : d.triggered = false)
    (ho : optOut cfg (f fd s.host).2 = true) :
    recv_func_proxy cfg w fd
      = some ((f fd s.host).1,
          setSession w fd
            { s with host := (f fd s.host).2, hdata := some { d with enabled := false } }) := by
  have hc := (passes_false_iff d (f fd s.host)).1 hp
  simp only [recv_func_proxy, hfd, hs, hd, hf, Bool.not_true, Bool.false_eq_true, if_false]
  rw [if_neg (by rw [hc]; decide)]
  simp only [optOut, Bool.or_eq_true] at ho
  by_cases h1 : (decide (cfg.SERVER_TYPE = ServerType.LOGIN)
      && decide (RFIFOW (f fd s.host).2 0 = 0x2710)) = true
  · rw [if_pos (by rw [ht, h1]; decide), setSession_setSession]
  · have h2 := ho.resolve_left h1
    rw [if_neg (by rw [ht, Bool.eq_false_iff.2 h1]; decide),
      if_pos (by rw [ht, h2]; decide), setSession_setSession]

theorem recv_log (cfg : Config) (w : World) (fd : Int) (s : Session)
    (d : SessionExt) (f : HostRecv)
    (hfd : session_is_valid w fd = true) (hs : w.session fd = some s)
    (hd : s.hdata = some d) (hf : d.recv_func = RecvFn.host f)
    (hp : passes d (f fd s.host) = false)
    (ho : d.triggered = true ∨ optOut cfg (f fd s.host).2 = false) :
    recv_func_proxy cfg w fd
      = (open_file cfg (setSession w fd { s with host := (f fd s.host).2 })
          { d with triggered := true }).map fun r =>
          ((f fd s.host).1,
            setSession
              (packet_log r.1 r.2.file
                (memAt (f fd s.host).2.rdata
                  (((f fd s.host).2.rdata_size : Int) - (f fd s.host).1))
                (f fd s.host).1 false)
              fd { s with host := (f fd s.host).2, hdata := some r.2 }) := by
  have hc := (passes_false_iff d (f fd s.host)).1 hp
  have e1 : (decide (d.triggered = false) && (decide (cfg.SERVER_TYPE = ServerType.LOGIN)
      && decide (RFIFOW (f fd s.host).2 0 = 0x2710))) = false := by
    rcases ho with h | h
    · simp [h]
    · simp only [optOut, Bool.or_eq_false_iff] at h
      rw [h.1]; simp
  have e2 : (decide (d.triggered = false) && (decide (cfg.SERVER_TYPE = ServerType.CHAR)
      && decide (RFIFOW (f fd s.host).2 0 = 0x2af8))) = false := by
    rcases ho with h | h
    · simp [h]
    · simp only [optOut, Bool.or_eq_false_iff] at h
      rw [h.2]; simp
  simp only [recv_func_proxy, hfd, hs, hd, hf, Bool.not_true, Bool.false_eq_true, if_false]
  rw [if_neg (by rw [hc]; decide), if_neg (by rw [e1]; decide), if_neg (by rw [e2]; decide)]
  have hd1 : SessionExt.mk d.enabled true d.file (RecvFn.host f)
      = SessionExt.mk d.enabled true d.file d.recv_func := by
    rw [hf]
  rw [hd1]
  split
  · rename_i h
    rw [h]; rfl
  · rename_i r h
    rw [h]; rfl

theorem wfifo_skip (cfg : Config) (w : World) (fd : Int) (len : Nat) (s : Session)
    (d : SessionExt) (hfd : session_is_valid w fd = true) (hs : w.session fd = some s)
    (hd : s.hdata = some d)
    (hc : len = 0 ∨ d.enabled = false ∨ s.host.validate = false) :
    socket_validateWfifo_pre cfg w fd len = some w := by
  unfold socket_validateWfifo_pre
  simp only [hfd, hs, hd, Bool.not_true, Bool.false_eq_true, if_false]
  rcases hc with hc | hc | hc
  · simp [hc]
  · simp [hc]
  · simp [hc]

theorem wfifo_log (cfg : Config) (w : World) (fd : Int) (len : Nat) (s : Session)
    (d : SessionExt) (hfd : session_is_valid w fd = true) (hs : w.session fd = some s)
    (hd : s.hdata = some d)
    (hc : ¬ (len = 0 ∨ d.enabled = false ∨ s.host.validate = false)) :
    socket_validateWfifo_pre cfg w fd len
      = (open_file cfg w d).map fun r =>
          setSession (packet_log r.1 r.2.file (WFIFOP s.host 0) (size_t_to_int len) true)
            fd { s with hdata := some r.2 } := by
  simp only [not_or] at hc
  obtain ⟨h1, h2, h3⟩ := hc
  unfold socket_validateWfifo_pre
  simp only [hfd, hs, hd, Bool.not_true, Bool.false_eq_true, if_false]
  simp only [h1, if_false]
  have hb : (decide (d.enabled = false) || decide (s.host.validate = false)) = false := by
    simp [h2, h3]
  rw [if_neg (by rw [hb]; decide)]
  split
  · rename_i h
    rw [h]; rfl
  · rename_i r h
    rw [h]; rfl

theorem close_skip (w : World) (fd : Int) (s : Session) (d : SessionExt)
    (hfd : session_is_valid w fd = true) (hs : w.session fd = some s)
    (hd : s.hdata = some d) (hc : d.enabled = false ∨ d.file = none) :
    socket_close_pre w fd = w := by
  unfold socket_close_pre
  simp only [hfd, hs, hd, Bool.not_true, Bool.false_eq_true, if_false]
  rcases hc with hc | hc
  · simp [hc]
  · simp [hc]

theorem close_do (w : World) (fd : Int) (s : Session) (d : SessionExt) (h : Nat)
    (hfd : session_is_valid w fd = true) (hs : w.session fd = some s)
    (hd : s.hdata = some d) (hen : d.enabled = true) (hfile : d.file = some h) :
    socket_close_pre w fd
      = setSession { w with trace := w.trace ++ [IOEvent.fclose (some h)] } fd
          { s with hdata := some { d with file := none } } := by
  unfold socket_close_pre
  simp [hfd, hs, hd, hen, hfile]

/-! ## One hook call on an instrumented connection -/

theorem open_file_logged (cfg : Config) (w : World) (d : SessionExt) (buf : Nat → Nat)
    (len : Int) (isSend : Bool) :
    (open_file cfg w d).map
        (fun r => (r.2, (packet_log r.1 r.2.file buf len isSend).trace))
      = logged cfg w.fopen_ok w.clock d w.trace buf len isSend := by
  unfold open_file logged packet_log
  cases hf : d.file with
  | some h => simp [hf]
  | none => cases hok : w.fopen_ok <;> simp [hf, hok]

theorem open_file_session (cfg : Config) (w : World) (d : SessionExt)
    (r : World × SessionExt) (h : open_file cfg w d = some r) :
    r.1.session = w.session ∧ r.2.recv_func = d.recv_func ∧ r.2.enabled = d.enabled ∧
      r.2.triggered = d.triggered := by
  unfold open_file at h
  cases hf : d.file with
  | some x =>
    simp only [hf, Option.some.injEq] at h
    subst h
    exact ⟨rfl, rfl, rfl, rfl⟩
  | none =>
    cases hok : w.fopen_ok
    · simp [hf, hok] at h
    · simp only [hf, hok, if_true, Option.some.injEq] at h
      subst h
      exact ⟨rfl, rfl, rfl, rfl⟩

/-- One hook call on an instrumented connection either does not return, and
then `capture` is `none`, or returns, keeps the connection instrumented, and
acts on record and trace as `capture` says. -/
theorem step_attached (cfg : Config) (w : World) (fd : Int) (f : HostRecv) (d : SessionExt)
    (e : Event) (h : Attached w fd f d) :
    (step cfg fd w e = none ∧ capture cfg f fd e d w.trace = none) ∨
    ∃ w1 d1, step cfg fd w e = some w1 ∧
      capture cfg f fd e d w.trace = some (d1, w1.trace) ∧ Attached w1 fd f d1 := by
  obtain ⟨hfd, s, hs, hd, hf⟩ := h
  have hs0 := hostSets_session_self w fd e s hs
  have hv0 := valid_of_session _ fd _ hfd hs0
  have ht0 : (hostSets w fd e).trace = w.trace := rfl
  unfold step capture
  rcases hcall : e.call with l | _ | len | _
  · have hnot : ¬ (fd < 0) := by omega
    refine Or.inr ⟨_, d, rfl, ?_, ⟨hfd, { s with host := e.host }, ?_, hd, hf⟩⟩
    · simp [sockt_connect_client_post, hnot, hv0, hs0, hd, ht0]
    · simp [sockt_connect_client_post, hnot, hv0, hs0, hd]
  · simp only
    cases hp : passes d (f fd e.host)
    · have hlog : ∀ (ho : d.triggered = true ∨ optOut cfg (f fd e.host).2 = false),
          (Option.map Prod.snd (recv_func_proxy cfg (hostSets w fd e) fd) = none ∧
            logged cfg e.fopen_ok e.clock { d with triggered := true } w.trace
              (memAt (f fd e.host).2.rdata
                (((f fd e.host).2.rdata_size : Int) - (f fd e.host).1))
              (f fd e.host).1 false = none) ∨
          ∃ w1 d1, Option.map Prod.snd (recv_func_proxy cfg (hostSets w fd e) fd) = some w1 ∧
            logged cfg e.fopen_ok e.clock { d with triggered := true } w.trace
              (memAt (f fd e.host).2.rdata
                (((f fd e.host).2.rdata_size : Int) - (f fd e.host).1))
              (f fd e.host).1 false = some (d1, w1.trace) ∧
            Attached w1 fd f d1 := by
        intro ho
        have hr := recv_log cfg _ fd _ d f hv0 hs0 hd hf hp ho
        simp only at hr
        have hl := open_file_logged cfg
          (setSession (hostSets w fd e) fd { s with host := (f fd e.host).2 })
          { d with triggered := true }
          (memAt (f fd e.host).2.rdata
            (((f fd e.host).2.rdata_size : Int) - (f fd e.host).1))
          (f fd e.host).1 false
        have hl' : logged cfg e.fopen_ok e.clock { d with triggered := true } w.trace
            (memAt (f fd e.host).2.rdata
              (((f fd e.host).2.rdata_size : Int) - (f fd e.host).1))
            (f fd e.host).1 false = _ := hl.symm
        rw [hr, hl']
        cases hopen : open_file cfg
          (setSession (hostSets w fd e) fd { s with host := (f fd e.host).2 })
          { d with triggered := true } with
        | none => exact Or.inl ⟨rfl, rfl⟩
        | some r =>
          have hos := open_file_session cfg _ _ r hopen
          refine Or.inr ⟨_, r.2, rfl, ?_, ⟨hfd, _, session_setSession_self _ _ _, rfl, ?_⟩⟩
          · simp [setSession]
          · rw [hos.2.1]; exact hf
      cases ht : d.triggered
      · cases ho : optOut cfg (f fd e.host).2
        · simpa [ht, ho] using hlog (Or.inr ho)
        · have hr := recv_optOut cfg _ fd _ d f hv0 hs0 hd hf hp ht ho
          simp only at hr
          rw [hr]
          refine Or.inr ⟨_, { d with enabled := false }, rfl, ?_,
            ⟨hfd, _, session_setSession_self _ _ _, rfl, hf⟩⟩
          simp [setSession, ht0, ht, ho]
      · simpa [ht] using hlog (Or.inl ht)
    · have hr := recv_early cfg _ fd _ d f hv0 hs0 hd hf hp
      simp only at hr
      rw [hr]
      refine Or.inr ⟨_, d, rfl, ?_, ⟨hfd, _, session_setSession_self _ _ _, hd, hf⟩⟩
      simp [setSession, ht0]
  · simp only
    by_cases hc : len = 0 ∨ d.enabled = false ∨ e.host.validate = false
    · rw [if_pos hc, wfifo_skip cfg _ fd len _ d hv0 hs0 hd hc]
      exact Or.inr ⟨_, d, rfl, by rw [ht0], ⟨hfd, _, hs0, hd, hf⟩⟩
    · rw [if_neg hc, wfifo_log cfg _ fd len _ d hv0 hs0 hd hc]
      have hl := open_file_logged cfg (hostSets w fd e) d (WFIFOP e.host 0)
        (size_t_to_int len) true
      have hl' : logged cfg e.fopen_ok e.clock d w.trace (WFIFOP e.host 0)
          (size_t_to_int len) true = _ := hl.symm
      rw [hl']
      cases hopen : open_file cfg (hostSets w fd e) d with
      | none => exact Or.inl ⟨rfl, rfl⟩
      | some r =>
        have hos := open_file_session cfg _ _ r hopen
        refine Or.inr ⟨_, r.2, rfl, ?_, ⟨hfd, _, session_setSession_self _ _ _, rfl, ?_⟩⟩
        · simp [setSession]
        · rw [hos.2.1]; exact hf
  · simp only
    cases he : d.enabled
    · rw [close_skip _ fd _ d hv0 hs0 hd (Or.inl he)]
      exact Or.inr ⟨_, d, rfl, by simp [ht0], ⟨hfd, _, hs0, hd, hf⟩⟩
    · cases hfile : d.file with
      | none =>
        rw [close_skip _ fd _ d hv0 hs0 hd (Or.inr hfile)]
        exact Or.inr ⟨_, d, rfl, by simp [ht0], ⟨hfd, _, hs0, hd, hf⟩⟩
      | some h =>
        rw [close_do _ fd _ d h hv0 hs0 hd he hfile]
        refine Or.inr ⟨_, { d with file := none }, rfl, ?_,
          ⟨hfd, _, session_setSession_self _ _ _, rfl, hf⟩⟩
        simp [setSession, ht0, he]

/-! ## Sequences of calls -/

theorem run_attached (cfg : Config) (fd : Int) (f : HostRecv) (es : List Event) :
    ∀ (w : World) (d : SessionExt), Attached w fd f d →
      (run cfg fd w es = none ∧ captures cfg f fd es (d, w.trace) = none) ∨
      ∃ w1 d1, run cfg fd w es = some w1 ∧
        captures cfg f fd es (d, w.trace) = some (d1, w1.trace) ∧ Attached w1 fd f d1 := by
  induction es with
  | nil => intro w d h; exact Or.inr ⟨w, d, rfl, rfl, h⟩
  | cons e es ih =>
    intro w d h
    rcases step_attached cfg w fd f d e h with ⟨h1, h2⟩ | ⟨w1, d1, h1, h2, h3⟩
    · exact Or.inl ⟨by simp [run, h1], by simp [captures, h2]⟩
    · rcases ih w1 d1 h3 with ⟨h4, h5⟩ | ⟨w2, d2, h4, h5, h6⟩
      · exact Or.inl ⟨by simp [run, h1, h4], by simp [captures, h2, h5]⟩
      · exact Or.inr ⟨w2, d2, by simp [run, h1, h4], by simp [captures, h2, h5], h6⟩

/-- A call on a descriptor that is not a valid session returns and does nothing
to the capture record and to the trace. -/
theorem step_invalid (cfg : Config) (w : World) (fd : Int) (e : Event)
    (h : session_is_valid w fd = false) :
    ∃ w1, step cfg fd w e = some w1 ∧ session_is_valid w1 fd = false ∧
      w1.trace = w.trace ∧ extOf w1 fd = extOf w fd := by
  have hv0 : session_is_valid (hostSets w fd e) fd = false := by
    simp only [session_is_valid, Bool.and_eq_false_iff, decide_eq_false_iff_not] at h ⊢
    rcases h with h | h
    · exact Or.inl h
    · right
      cases hs : w.session fd with
      | none => simp [hostSets, hs]
      | some s => simp [hs] at h
  have hx := extOf_hostSets w fd e
  unfold step
  rcases hcall : e.call with l | _ | len | _
  · refine ⟨_, rfl, ?_⟩
    simp [sockt_connect_client_post, hv0, hx]
    rfl
  · refine ⟨hostSets w fd e, ?_, hv0, rfl, hx⟩
    simp [recv_func_proxy, hv0]
  · refine ⟨hostSets w fd e, ?_, hv0, rfl, hx⟩
    simp [socket_validateWfifo_pre, hv0]
  · refine ⟨_, rfl, ?_⟩
    simp [socket_close_pre, hv0, hx]
    rfl

theorem run_invalid (cfg : Config) (fd : Int) (es : List Event) :
    ∀ (w : World), session_is_valid w fd = false →
      ∃ w1, run cfg fd w es = some w1 ∧ w1.trace = w.trace ∧ extOf w1 fd = extOf w fd := by
  induction es with
  | nil => intro w _; exact ⟨w, rfl, rfl, rfl⟩
  | cons e es ih =>
    intro w h
    obtain ⟨w1, h1, h2, h3, h4⟩ := step_invalid cfg w fd e h
    obtain ⟨w2, h5, h6, h7⟩ := ih w1 h2
    exact ⟨w2, by simp [run, h1, h5], h6.trans h3, h7.trans h4⟩

/-- A call on a valid connection without a capture record returns: the
post-connect hook attaches a fresh record that saves the installed read
function; every other hook leaves the connection as it is.  No file is
touched. -/
theorem step_detached (cfg : Config) (w : World) (fd : Int) (f : HostRecv) (e : Event)
    (h : Detached w fd f) :
    ∃ w1, step cfg fd w e = some w1 ∧ w1.trace = w.trace ∧
      (((∃ l, e.call = Call.connect_client_post l) ∧
          Attached w1 fd f (freshExt (RecvFn.host f))) ∨
        ((∀ l, e.call ≠ Call.connect_client_post l) ∧ Detached w1 fd f)) := by
  obtain ⟨hfd, s, hs, hd, hf⟩ := h
  have hs0 := hostSets_session_self w fd e s hs
  have hv0 := valid_of_session _ fd _ hfd hs0
  have hnot : ¬ (fd < 0) := by omega
  have hdet : Detached (hostSets w fd e) fd f := ⟨hfd, _, hs0, hd, hf⟩
  unfold step
  rcases hcall : e.call with l | _ | len | _
  · refine ⟨_, rfl, ?_, Or.inl ⟨⟨l, rfl⟩, hfd, ?_⟩⟩
    · simp [sockt_connect_client_post, hnot, hv0, hs0, hd, setSession]
      rfl
    · refine ⟨{ s with host := e.host, func_recv := RecvFn.recv_func_proxy,
                       hdata := some (freshExt (RecvFn.host f)) }, ?_, rfl, rfl⟩
      simp [sockt_connect_client_post, hnot, hv0, hs0, hd, setSession, freshExt, hf]
  · refine ⟨{ hostSets w fd e with
        console := (hostSets w fd e).console ++ ["nullpo: data"] }, ?_, rfl,
      Or.inr ⟨by simp, hfd, _, hs0, hd, hf⟩⟩
    simp [recv_func_proxy, hv0, hs0, hd]
  · refine ⟨hostSets w fd e, ?_, rfl, Or.inr ⟨by simp, hdet⟩⟩
    simp [socket_validateWfifo_pre, hv0, hs0, hd]
  · refine ⟨hostSets w fd e, ?_, rfl, Or.inr ⟨by simp, hdet⟩⟩
    simp [socket_close_pre, hv0, hs0, hd]

/-! ## Properties of one call, seen on record and trace -/

theorem opens_append (a b : List IOEvent) : opens (a ++ b) = opens a + opens b := by
  simp [opens, nextStream, List.countP_append]

theorem closes_append (a b : List IOEvent) : closes (a ++ b) = closes a + closes b := by
  simp [closes, List.countP_append]

theorem opens_packetEvents (c : Clock) (file : FilePtr) (buf : Nat → Nat) (len : Int)
    (isSend : Bool) : opens (packetEvents c file buf len isSend) = 0 := by
  unfold opens nextStream
  rw [List.countP_eq_zero]
  intro a ha
  simp only [packetEvents, List.mem_append, List.mem_map, List.mem_cons, List.mem_singleton,
    List.mem_nil_iff, or_false] at ha
  rcases ha with ((ha | ha) | ⟨_, _, ha⟩) | ha | ha <;> subst ha <;> simp

theorem closes_packetEvents (c : Clock) (file : FilePtr) (buf : Nat → Nat) (len : Int)
    (isSend : Bool) : closes (packetEvents c file buf len isSend) = 0 := by
  unfold closes
  rw [List.countP_eq_zero]
  intro a ha
  simp only [packetEvents, List.mem_append, List.mem_map, List.mem_cons, List.mem_singleton,
    List.mem_nil_iff, or_false] at ha
  rcases ha with ((ha | ha) | ⟨_, _, ha⟩) | ha | ha <;> subst ha <;> simp

theorem opens_headerEvents (cfg : Config) (c : Clock) (file : FilePtr) :
    opens (headerEvents cfg c file) = 1 := by
  simp [opens, nextStream, headerEvents]

theorem closes_headerEvents (cfg : Config) (c : Clock) (file : FilePtr) :
    closes (headerEvents cfg c file) = 0 := by
  simp [closes, headerEvents]

/-- The two ways `logged` returns: the record holds a stream and the record of
the call is appended, or it holds none, `fopen` succeeds and the header and the
record are appended. -/
theorem logged_cases (cfg : Config) (ok : Bool) (c : Clock) (d : SessionExt)
    (tr : List IOEvent) (buf : Nat → Nat) (len : Int) (isSend : Bool)
    (p : SessionExt × List IOEvent) (h : logged cfg ok c d tr buf len isSend = some p) :
    (∃ x, d.file = some x ∧ p = (d, tr ++ packetEvents c (some x) buf len isSend)) ∨
    (d.file = none ∧ ok = true ∧
      p = ({ d with file := some (nextStream tr) },
        (tr ++ headerEvents cfg c (some (nextStream tr)))
          ++ packetEvents c (some (nextStream tr)) buf len isSend)) := by
  unfold logged at h
  cases hf : d.file with
  | some x =>
    simp only [hf, Option.some.injEq] at h
    exact Or.inl ⟨x, rfl, h.symm⟩
  | none =>
    cases hok : ok
    · simp [hf, hok] at h
    · simp only [hf, hok, if_true, Option.some.injEq] at h
      exact Or.inr ⟨rfl, rfl, h.symm⟩

theorem logged_returns (cfg : Config) (ok : Bool) (c : Clock) (d : SessionExt)
    (tr : List IOEvent) (buf : Nat → Nat) (len : Int) (isSend : Bool)
    (h : ok = true ∨ d.file.isSome = true) :
    ∃ p, logged cfg ok c d tr buf len isSend = some p := by
  unfold logged
  cases hf : d.file with
  | some x => exact ⟨_, rfl⟩
  | none =>
    rcases h with h | h
    · simp [h]
    · simp [hf] at h

theorem logged_flags (cfg : Config) (ok : Bool) (c : Clock) (d : SessionExt)
    (tr : List IOEvent) (buf : Nat → Nat) (len : Int) (isSend : Bool)
    (p : SessionExt × List IOEvent) (h : logged cfg ok c d tr buf len isSend = some p) :
    p.1.enabled = d.enabled ∧ p.1.triggered = d.triggered ∧ p.1.file.isSome = true ∧
      p.1.recv_func = d.recv_func := by
  rcases logged_cases cfg ok c d tr buf len isSend p h with ⟨x, hx, rfl⟩ | ⟨_, _, rfl⟩
  · simp [hx]
  · simp

theorem logged_counts (cfg : Config) (ok : Bool) (c : Clock) (d : SessionExt)
    (tr : List IOEvent) (buf : Nat → Nat) (len : Int) (isSend : Bool)
    (p : SessionExt × List IOEvent) (h : logged cfg ok c d tr buf len isSend = some p) :
    opens p.2 + holds d = opens tr + holds p.1 ∧ closes p.2 = closes tr := by
  rcases logged_cases cfg ok c d tr buf len isSend p h with ⟨x, hx, rfl⟩ | ⟨hx, _, rfl⟩
  · simp [hx, holds, opens_append, closes_append, opens_packetEvents, closes_packetEvents]
  · simp [hx, holds, opens_append, closes_append, opens_packetEvents, closes_packetEvents,
      opens_headerEvents, closes_headerEvents]

/-- A call returns when `fopen` succeeds or the record holds a stream. -/
theorem capture_returns (cfg : Config) (f : HostRecv) (fd : Int) (e : Event) (d : SessionExt)
    (tr : List IOEvent) (h : e.fopen_ok = true ∨ d.file.isSome = true) :
    ∃ p, capture cfg f fd e d tr = some p := by
  unfold capture
  rcases hcall : e.call with l | _ | len | _
  · exact ⟨_, rfl⟩
  · simp only
    split_ifs
    · exact ⟨_, rfl⟩
    · exact ⟨_, rfl⟩
    · exact logged_returns _ _ _ _ _ _ _ _ h
  · simp only
    split_ifs
    · exact ⟨_, rfl⟩
    · exact logged_returns _ _ _ _ _ _ _ _ h
  · simp only
    split_ifs
    · exact ⟨_, rfl⟩
    · split <;> exact ⟨_, rfl⟩

/-- Flags only move forward under one call, and the saved read function
stays. -/
theorem capture_flags (cfg : Config) (f : HostRecv) (fd : Int) (e : Event) (d : SessionExt)
    (tr : List IOEvent) (p : SessionExt × List IOEvent)
    (h : capture cfg f fd e d tr = some p) :
    (d.triggered = true → p.1.triggered = true) ∧
    (d.enabled = false → p.1.enabled = false) := by
  unfold capture at h
  rcases hcall : e.call with l | _ | len | _
  · simp only [hcall, Option.some.injEq] at h
    subst h
    exact ⟨id, id⟩
  · simp only [hcall] at h
    split_ifs at h
    · simp only [Option.some.injEq] at h
      subst h
      exact ⟨id, id⟩
    · simp only [Option.some.injEq] at h
      subst h
      exact ⟨id, fun _ => rfl⟩
    · have hfl := logged_flags _ _ _ _ _ _ _ _ p h
      refine ⟨fun _ => hfl.2.1, fun hd => ?_⟩
      rw [hfl.1]; exact hd
  · simp only [hcall] at h
    split_ifs at h
    · simp only [Option.some.injEq] at h
      subst h
      exact ⟨id, id⟩
    · have hfl := logged_flags _ _ _ _ _ _ _ _ p h
      refine ⟨fun ht => ?_, fun hd => ?_⟩
      · rw [hfl.2.1]; exact ht
      · rw [hfl.1]; exact hd
  · simp only [hcall] at h
    split_ifs at h
    · simp only [Option.some.injEq] at h
      subst h
      exact ⟨id, id⟩
    · split at h <;>
      · simp only [Option.some.injEq] at h
        subst h
        exact ⟨id, id⟩

/-- A disabled record is never changed, and nothing is written. -/
theorem capture_disabled (cfg : Config) (f : HostRecv) (fd : Int) (e : Event) (d : SessionExt)
    (tr : List IOEvent) (h : d.enabled = false) : capture cfg f fd e d tr = some (d, tr) := by
  unfold capture
  split
  · rfl
  · simp [passes, h]
  · simp [h]
  · simp [h]

theorem captures_disabled (cfg : Config) (f : HostRecv) (fd : Int) (es : List Event) :
    ∀ (d : SessionExt) (tr : List IOEvent), d.enabled = false →
      captures cfg f fd es (d, tr) = some (d, tr) := by
  induction es with
  | nil => intro d tr _; rfl
  | cons e es ih =>
    intro d tr h
    simp only [captures, capture_disabled cfg f fd e d tr h, Option.some_bind]
    exact ih d tr h

/-- Files are created only when none is held, and closed only when one is. -/
theorem capture_counts (cfg : Config) (f : HostRecv) (fd : Int) (e : Event) (d : SessionExt)
    (tr : List IOEvent) (p : SessionExt × List IOEvent)
    (h : capture cfg f fd e d tr = some p) :
    opens p.2 + closes tr + holds d = opens tr + closes p.2 + holds p.1 ∧
      closes tr ≤ closes p.2 := by
  unfold capture at h
  rcases hcall : e.call with l | _ | len | _
  · simp only [hcall, Option.some.injEq] at h
    subst h
    exact ⟨rfl, le_refl _⟩
  · simp only [hcall] at h
    split_ifs at h
    · simp only [Option.some.injEq] at h
      subst h
      exact ⟨rfl, le_refl _⟩
    · simp only [Option.some.injEq] at h
      subst h
      exact ⟨rfl, le_refl _⟩
    · have hc := logged_counts _ _ _ _ _ _ _ _ p h
      have hh : holds { d with triggered := true } = holds d := rfl
      rw [hh] at hc
      omega
  · simp only [hcall] at h
    split_ifs at h
    · simp only [Option.some.injEq] at h
      subst h
      exact ⟨rfl, le_refl _⟩
    · have hc := logged_counts _ _ _ _ _ _ _ _ p h
      omega
  · simp only [hcall] at h
    split_ifs at h
    · simp only [Option.some.injEq] at h
      subst h
      exact ⟨rfl, le_refl _⟩
    · cases hfile : d.file with
      | none =>
        simp only [hfile, Option.some.injEq] at h
        subst h
        exact ⟨rfl, le_refl _⟩
      | some x =>
        simp only [hfile, Option.some.injEq] at h
        subst h
        simp [holds, hfile, closes_append, opens_append, opens, nextStream, closes]
        omega

theorem captures_counts (cfg : Config) (f : HostRecv) (fd : Int) (es : List Event) :
    ∀ (d : SessionExt) (tr : List IOEvent) (p : SessionExt × List IOEvent),
      captures cfg f fd es (d, tr) = some p →
      opens p.2 + closes tr + holds d = opens tr + closes p.2 + holds p.1 ∧
      closes tr ≤ closes p.2 := by
  induction es with
  | nil =>
    intro d tr p h
    simp only [captures, Option.some.injEq] at h
    subst h
    exact ⟨rfl, le_refl _⟩
  | cons e es ih =>
    intro d tr p h
    simp only [captures] at h
    cases hc : capture cfg f fd e d tr with
    | none => simp [hc] at h
    | some q =>
      rw [hc, Option.some_bind] at h
      have h1 := capture_counts cfg f fd e d tr q hc
      have h2 := ih q.1 q.2 p h
      constructor
      · omega
      · omega

theorem captures_returns (cfg : Config) (f : HostRecv) (fd : Int) (es : List Event) :
    ∀ (q : SessionExt × List IOEvent), (∀ x ∈ es, x.fopen_ok = true) →
      ∃ p, captures cfg f fd es q = some p := by
  induction es with
  | nil => intro q _; exact ⟨q, rfl⟩
  | cons e es ih =>
    intro q h
    obtain ⟨p1, h1⟩ := capture_returns cfg f fd e q.1 q.2
      (Or.inl (h e (List.mem_cons_self _ _)))
    obtain ⟨p2, h2⟩ := ih p1 (fun x hx => h x (List.mem_cons_of_mem _ hx))
    exact ⟨p2, by simp [captures, h1, h2]⟩

/-! ## C6: the record format -/

theorem hexVal_hexDigit (k : Nat) (hk : k < 16) : hexVal (hexDigit k) = some k := by
  interval_cases k <;> decide

theorem hexDigit_mem (k : Nat) (hk : k < 16) : hexDigit k ∈ hexDigits := by
  interval_cases k <;> decide

theorem decodeHex_fmt02x (bs : List Nat) (hb : ∀ b ∈ bs, b < 256) :
    decodeHex (bs.flatMap fmt02x) = some bs := by
  induction bs with
  | nil => rfl
  | cons b bs ih =>
    have hb0 : b < 256 := hb b (List.mem_cons_self _ _)
    have ih1 := ih (fun x hx => hb x (List.mem_cons_of_mem _ hx))
    have h1 : hexVal (hexDigit (b / 16)) = some (b / 16) := hexVal_hexDigit _ (by omega)
    have h2 : hexVal (hexDigit (b % 16)) = some (b % 16) := hexVal_hexDigit _ (by omega)
    have hf : fmt02x b = [hexDigit (b / 16), hexDigit (b % 16)] := rfl
    have : 16 * (b / 16) + b % 16 = b := Nat.div_add_mod b 16
    rw [List.flatMap_cons, hf]
    simp [decodeHex, h1, h2, ih1, this]

theorem length_flatMap_fmt02x (bs : List Nat) : (bs.flatMap fmt02x).length = 2 * bs.length := by
  induction bs with
  | nil => rfl
  | cons b bs ih => simp only [List.flatMap_cons, List.length_append, ih, fmt02x,
      List.length_cons, List.length_nil]; omega

theorem getElem_flatMap_fmt02x (bs : List Nat) (i : Nat) (hi : i < bs.length) :
    (bs.flatMap fmt02x)[2 * i]? = some (hexDigit (bs.getD i 0 / 16)) ∧
    (bs.flatMap fmt02x)[2 * i + 1]? = some (hexDigit (bs.getD i 0 % 16)) := by
  induction bs generalizing i with
  | nil => simp at hi
  | cons b bs ih =>
    cases i with
    | zero => simp [fmt02x]
    | succ j =>
      have hj : j < bs.length := by simpa using hi
      have e1 : 2 * (j + 1) = (2 * j) + 1 + 1 := by omega
      have e2 : 2 * (j + 1) + 1 = (2 * j + 1) + 1 + 1 := by omega
      have := ih j hj
      have hf : fmt02x b = [hexDigit (b / 16), hexDigit (b % 16)] := rfl
      rw [List.flatMap_cons, hf]
      simp only [List.cons_append, List.nil_append, e1, e2,
        List.getElem?_cons_succ, List.getD_cons_succ]
      exact this

theorem mem_flatMap_fmt02x (bs : List Nat) (hb : ∀ b ∈ bs, b < 256) :
    ∀ c ∈ bs.flatMap fmt02x, c ∈ hexDigits := by
  intro c hc
  simp only [List.mem_flatMap, fmt02x, List.mem_cons, List.mem_singleton] at hc
  obtain ⟨b, hbm, hc⟩ := hc
  have hb0 := hb b hbm
  rcases hc with rfl | rfl | hc
  · exact hexDigit_mem _ (by omega)
  · exact hexDigit_mem _ (by omega)
  · simp at hc

theorem textOf_bytes (file : FilePtr) (buf : Nat → Nat) (n : Nat) :
    ((List.range n).map
        (fun f => IOEvent.fprintf file (String.mk (fmt02x (buf f % 256))))).flatMap (textOf file)
      = ((List.range n).map (fun f => buf f % 256)).flatMap fmt02x := by
  induction (List.range n) with
  | nil => rfl
  | cons a l ih => simp [List.flatMap_cons, textOf, ih]

theorem text_packetEvents (c : Clock) (file : FilePtr) (buf : Nat → Nat) (len : Int)
    (isSend : Bool) :
    (packetEvents c file buf len isSend).flatMap (textOf file)
      = ("#time " ++ toString c.tv_sec ++ "." ++ toString c.tv_usec ++ "\n").data
        ++ (if isSend then "5252\n" else "5353\n").data
        ++ ((List.range len.toNat).map (fun f => buf f % 256)).flatMap fmt02x
        ++ ['\n'] := by
  unfold packetEvents
  simp only [List.flatMap_append, textOf_bytes]
  simp [List.flatMap_cons, textOf]

theorem fileText_append (a b : List IOEvent) (h : FilePtr) :
    fileText (a ++ b) h = fileText a h ++ String.mk (b.flatMap (textOf h)) := by
  apply String.ext
  simp [fileText, String.data_append, List.flatMap_append]

theorem map_getD_range (l : List Nat) :
    (List.range l.length).map (fun i => l.getD i 0) = l := by
  apply List.ext_getElem
  · simp
  · intro n h1 h2
    simp [List.getD_eq_getElem?_getD, h2]

/-- C6. For a payload of `n` bytes, `packet_log` appends to the stream the `#time`
line, then the direction line `5252` (send) or `5353` (receive), then one line
of exactly `2 * n` characters, all among `0-9a-f`, whose characters `2 * i` and
`2 * i + 1` are the two hexadecimal digits of byte `i`; decoding that line gives
back the payload. -/
theorem C6_packet_log_format (w : World) (file : FilePtr) (payload : List Nat) (isSend : Bool)
    (hb : ∀ b ∈ payload, b < 256) :
    ∃ txt : List Char,
      fileText (packet_log w file (fun i => payload.getD i 0) payload.length isSend).trace file
        = fileText w.trace file
          ++ ("#time " ++ toString w.clock.tv_sec ++ "." ++ toString w.clock.tv_usec ++ "\n")
          ++ (if isSend then "5252" else "5353") ++ "\n" ++ String.mk txt ++ "\n" ∧
      txt.length = 2 * payload.length ∧
      (∀ c ∈ txt, c ∈ hexDigits) ∧
      (∀ i, i < payload.length →
        txt[2 * i]? = some (hexDigit (payload.getD i 0 / 16)) ∧
        txt[2 * i + 1]? = some (hexDigit (payload.getD i 0 % 16))) ∧
      decodeHex txt = some payload := by
  have hmod : (List.range payload.length).map (fun f => payload.getD f 0 % 256) = payload := by
    have h1 : (List.range payload.length).map (fun f => payload.getD f 0 % 256)
        = ((List.range payload.length).map (fun i => payload.getD i 0)).map (· % 256) := by
      simp [List.map_map]
    rw [h1, map_getD_range]
    have h2 : payload.map (· % 256) = payload.map id :=
      List.map_congr_left (fun b hbm => Nat.mod_eq_of_lt (hb b hbm))
    simpa using h2
  refine ⟨payload.flatMap fmt02x, ?_, length_flatMap_fmt02x _, mem_flatMap_fmt02x _ hb,
    fun i hi => getElem_flatMap_fmt02x _ i hi, decodeHex_fmt02x _ hb⟩
  have ht : (packet_log w file (fun i => payload.getD i 0) payload.length isSend).trace
      = w.trace ++ packetEvents w.clock file (fun i => payload.getD i 0) payload.length isSend :=
    rfl
  rw [ht, fileText_append, text_packetEvents]
  simp only [Int.toNat_ofNat, hmod]
  apply String.ext
  cases isSend <;> simp [String.data_append, fileText]

/-- C6 at the payload `AB CD` sent at clock `exClock`: the record reads
`#time 1600000000.123456`, `5252`, `abcd`. -/
theorem C6_packet_log_format_witness :
    (∀ b ∈ [0xAB, 0xCD], b < 256) ∧
    ∃ txt : List Char,
      fileText (packet_log emptyWorld (some 0) (fun i => [0xAB, 0xCD].getD i 0)
          ([0xAB, 0xCD] : List Nat).length true).trace (some 0)
        = fileText emptyWorld.trace (some 0)
          ++ ("#time " ++ toString emptyWorld.clock.tv_sec ++ "."
              ++ toString emptyWorld.clock.tv_usec ++ "\n")
          ++ (if true then "5252" else "5353") ++ "\n" ++ String.mk txt ++ "\n" ∧
      txt.length = 2 * ([0xAB, 0xCD] : List Nat).length ∧
      (∀ c ∈ txt, c ∈ hexDigits) ∧
      (∀ i, i < ([0xAB, 0xCD] : List Nat).length →
        txt[2 * i]? = some (hexDigit (([0xAB, 0xCD] : List Nat).getD i 0 / 16)) ∧
        txt[2 * i + 1]? = some (hexDigit (([0xAB, 0xCD] : List Nat).getD i 0 % 16))) ∧
      decodeHex txt = some [0xAB, 0xCD] :=
  ⟨by decide, C6_packet_log_format emptyWorld (some 0) [0xAB, 0xCD] true (by decide)⟩

/-! ## C7: a second post-connect call -/

/-- C7. On a valid connection that already carries a capture record, the
post-connect hook returns `retVal`, leaves the whole session table as it was
(so the record with its saved read function, `enabled`, `triggered` and `file`,
and the installed read function are unchanged), touches no file, and only
prints the diagnostic. -/
theorem C7_connect_twice (w : World) (retVal listen_fd : Int) (s : Session) (d : SessionExt)
    (hv : session_is_valid w retVal = true) (hs : w.session retVal = some s)
    (hd : s.hdata = some d) :
    (sockt_connect_client_post w retVal listen_fd).1 = retVal ∧
    (sockt_connect_client_post w retVal listen_fd).2.session = w.session ∧
    extOf (sockt_connect_client_post w retVal listen_fd).2 retVal = some d ∧
    (sockt_connect_client_post w retVal listen_fd).2.session retVal = some s ∧
    (sockt_connect_client_post w retVal listen_fd).2.trace = w.trace ∧
    (sockt_connect_client_post w retVal listen_fd).2.console
      = w.console ++ ["Double logging for fd " ++ toString retVal ++ "\n"] := by
  have hpos : ¬ (retVal < 0) := by
    simp only [session_is_valid, Bool.and_eq_true, decide_eq_true_eq] at hv
    omega
  simp [sockt_connect_client_post, hpos, hv, hs, hd, extOf]

/-- C7 on `staleWorld`, whose session `5` is instrumented. -/
theorem C7_connect_twice_witness :
    session_is_valid staleWorld 5 = true ∧
    (sockt_connect_client_post staleWorld 5 3).1 = 5 ∧
    (sockt_connect_client_post staleWorld 5 3).2.session = staleWorld.session ∧
    extOf (sockt_connect_client_post staleWorld 5 3).2 5
      = some (freshExt (RecvFn.host (readBytes [0x10, 0x27]))) ∧
    (sockt_connect_client_post staleWorld 5 3).2.trace = staleWorld.trace :=
  have h := C7_connect_twice staleWorld 5 3
    { host := hostWith [0x01, 0x02] [], func_recv := RecvFn.recv_func_proxy,
      hdata := some (freshExt (RecvFn.host (readBytes [0x10, 0x27]))) }
    (freshExt (RecvFn.host (readBytes [0x10, 0x27]))) rfl rfl rfl
  ⟨rfl, h.1, h.2.1, h.2.2.1, h.2.2.2.2.1⟩

/-! ## C5: closing twice -/

/-- C5. Running the pre-close hook a second time changes nothing, and the two
runs together close a file exactly once when the first run finds capture
enabled with a file open on a valid connection, and never otherwise. -/
theorem C5_close_idempotent (w : World) (fd : Int) :
    socket_close_pre (socket_close_pre w fd) fd = socket_close_pre w fd ∧
    closes (socket_close_pre (socket_close_pre w fd) fd).trace
      = closes w.trace + (if closesFile w fd then 1 else 0) ∧
    closes (socket_close_pre (socket_close_pre w fd) fd).trace ≤ closes w.trace + 1 := by
  have key : socket_close_pre (socket_close_pre w fd) fd = socket_close_pre w fd ∧
      closes (socket_close_pre w fd).trace
        = closes w.trace + (if closesFile w fd then 1 else 0) := by
    cases hv : session_is_valid w fd
    · have h1 : socket_close_pre w fd = w := by simp [socket_close_pre, hv]
      rw [h1, h1]
      simp [closesFile, hv]
    · cases hs : w.session fd with
      | none => simp [session_is_valid, hs] at hv
      | some s =>
        cases hd : s.hdata with
        | none =>
          have h1 : socket_close_pre w fd = w := by simp [socket_close_pre, hv, hs, hd]
          rw [h1, h1]
          simp [closesFile, hv, extOf, hs, hd]
        | some d =>
          cases he : d.enabled
          · have h1 : socket_close_pre w fd = w := by simp [socket_close_pre, hv, hs, hd, he]
            rw [h1, h1]
            simp [closesFile, hv, extOf, hs, hd, he]
          · cases hfile : d.file with
            | none =>
              have h1 : socket_close_pre w fd = w := by
                simp [socket_close_pre, hv, hs, hd, he, hfile]
              rw [h1, h1]
              simp [closesFile, hv, extOf, hs, hd, he, hfile]
            | some h =>
              have h1 : socket_close_pre w fd
                  = setSession { w with trace := w.trace ++ [IOEvent.fclose (some h)] } fd
                      { s with hdata := some { d with file := none } } := by
                simp [socket_close_pre, hv, hs, hd, he, hfile]
              have hpos : 0 < fd := by
                simp only [session_is_valid, Bool.and_eq_true, decide_eq_true_eq] at hv
                exact hv.1
              have hv2 : session_is_valid (socket_close_pre w fd) fd = true := by
                rw [h1]
                exact valid_of_session _ fd _ hpos (session_setSession_self _ _ _)
              constructor
              · have h2 : (socket_close_pre w fd).session fd
                    = some { s with hdata := some { d with file := none } } := by
                  rw [h1]; exact session_setSession_self _ _ _
                generalize socket_close_pre w fd = w1 at h2 hv2
                simp [socket_close_pre, hv2, h2, he]
              · rw [h1]
                simp [closes, setSession, closesFile, hv, extOf, hs, hd, he, hfile,
                  List.countP_append]
  refine ⟨key.1, ?_, ?_⟩
  · rw [key.1, key.2]
  · rw [key.1, key.2]
    split_ifs <;> omega

/-! ## C8: the close hook and a disabled connection -/

/-- On a valid connection whose capture is enabled the close hook leaves no
stream in the record. -/
theorem close_clears_file_when_enabled (w : World) (fd : Int) (s : Session) (d : SessionExt)
    (hv : session_is_valid w fd = true) (hs : w.session fd = some s)
    (hd : s.hdata = some d) (hen : d.enabled = true) :
    extOf (socket_close_pre w fd) fd = some { d with file := none } := by
  unfold socket_close_pre
  simp only [hv, hs, hd, hen, Bool.not_true, Bool.false_eq_true, if_false]
  cases hfile : d.file with
  | none =>
    simp only [extOf, hs, Option.bind_some, hd]
    cases d
    simp_all
  | some h => simp [extOf_setSession_self]

/-- On a connection whose capture is disabled the close hook does nothing, so a
stream held by the record stays open. -/
theorem close_skips_disabled (w : World) (fd : Int) (s : Session) (d : SessionExt)
    (hs : w.session fd = some s) (hd : s.hdata = some d) (hen : d.enabled = false) :
    socket_close_pre w fd = w := by
  unfold socket_close_pre
  cases hv : session_is_valid w fd <;> simp [hs, hd, hen]

/-- C8 at the failing run `leakRun` (login server, descriptor 5): the run
returns, one file was opened and none closed, capture is disabled, and after
the close hook the record still holds the open stream `0`. -/
theorem C8_close_leaves_file_open :
    (run loginCfg 5 (freshWorld [0x10, 0x27]) leakRun).map
        (fun w => (opens w.trace, closes w.trace,
          (extOf w 5).map (fun d => (d.enabled, d.triggered, d.file))))
      = some (1, 0, some (false, false, some 0)) := by
  rfl


/-! ## C3: how many files a connection creates -/

theorem openNow_attached (w : World) (fd : Int) (f : HostRecv) (d : SessionExt)
    (h : Attached w fd f d) : openNow w fd = holds d := by
  simp [openNow, extOf_attached w fd f d h]

theorem openNow_detached (w : World) (fd : Int) (f : HostRecv) (h : Detached w fd f) :
    openNow w fd = 0 := by
  obtain ⟨_, s, hs, hd, _⟩ := h
  simp [openNow, extOf, hs, hd]

theorem holds_le_one (d : SessionExt) : holds d ≤ 1 := by
  unfold holds
  split_ifs <;> omega

theorem openNow_le_one (w : World) (fd : Int) : openNow w fd ≤ 1 := by
  unfold openNow
  split
  · exact holds_le_one _
  · omega

theorem counts_attached (cfg : Config) (fd : Int) (f : HostRecv) (es : List Event) (w : World)
    (d : SessionExt) (h : Attached w fd f d) (w1 : World) (hr : run cfg fd w es = some w1) :
    opens w1.trace + closes w.trace + openNow w fd
        = opens w.trace + closes w1.trace + openNow w1 fd ∧
      closes w.trace ≤ closes w1.trace := by
  rcases run_attached cfg fd f es w d h with ⟨h1, _⟩ | ⟨w2, d2, h1, h2, h3⟩
  · rw [h1] at hr; cases hr
  · rw [h1] at hr
    have hw : w2 = w1 := Option.some.inj hr
    subst hw
    have hc := captures_counts cfg f fd es d w.trace _ h2
    rw [openNow_attached w fd f d h, openNow_attached w2 fd f d2 h3]
    exact hc

theorem returns_attached (cfg : Config) (fd : Int) (f : HostRecv) (es : List Event) (w : World)
    (d : SessionExt) (h : Attached w fd f d) (hok : ∀ x ∈ es, x.fopen_ok = true) :
    ∃ w1, run cfg fd w es = some w1 := by
  rcases run_attached cfg fd f es w d h with ⟨_, h2⟩ | ⟨w2, _, h1, _, _⟩
  · obtain ⟨p, hp⟩ := captures_returns cfg f fd es (d, w.trace) hok
    rw [hp] at h2; cases h2
  · exact ⟨w2, h1⟩

theorem counts_detached (cfg : Config) (fd : Int) (f : HostRecv) (es : List Event) :
    ∀ (w : World), Detached w fd f → ∀ w1, run cfg fd w es = some w1 →
        opens w1.trace + closes w.trace + openNow w fd
          = opens w.trace + closes w1.trace + openNow w1 fd ∧
        closes w.trace ≤ closes w1.trace := by
  induction es with
  | nil =>
    intro w _ w1 hr
    simp only [run, Option.some.injEq] at hr
    subst hr
    exact ⟨rfl, le_refl _⟩
  | cons e es ih =>
    intro w h w2 hr
    obtain ⟨w1, h1, h2, h3⟩ := step_detached cfg w fd f e h
    simp only [run, h1, Option.some_bind] at hr
    have h0 := openNow_detached w fd f h
    rcases h3 with ⟨_, ha⟩ | ⟨_, hdet⟩
    · obtain ⟨h5, h6⟩ := counts_attached cfg fd f es w1 _ ha w2 hr
      have h7 : openNow w1 fd = 0 := by
        rw [openNow_attached w1 fd f _ ha]; rfl
      rw [h2] at h5 h6
      exact ⟨by omega, h6⟩
    · obtain ⟨h5, h6⟩ := ih w1 hdet w2 hr
      have h7 := openNow_detached w1 fd f hdet
      rw [h2] at h5 h6
      exact ⟨by omega, h6⟩

theorem returns_detached (cfg : Config) (fd : Int) (f : HostRecv) (es : List Event) :
    ∀ (w : World), Detached w fd f → (∀ x ∈ es, x.fopen_ok = true) →
      ∃ w1, run cfg fd w es = some w1 := by
  induction es with
  | nil => intro w _ _; exact ⟨w, rfl⟩
  | cons e es ih =>
    intro w h hok
    obtain ⟨w1, h1, _, h3⟩ := step_detached cfg w fd f e h
    have hok2 : ∀ x ∈ es, x.fopen_ok = true := fun x hx => hok x (List.mem_cons_of_mem _ hx)
    rcases h3 with ⟨_, ha⟩ | ⟨_, hdet⟩
    · obtain ⟨w2, h4⟩ := returns_attached cfg fd f es w1 _ ha hok2
      exact ⟨w2, by simp [run, h1, h4]⟩
    · obtain ⟨w2, h4⟩ := ih w1 hdet hok2
      exact ⟨w2, by simp [run, h1, h4]⟩

/-- A captured call on an enabled record that holds no stream creates a file
when `fopen` succeeds. -/
theorem capture_creates (cfg : Config) (f : HostRecv) (fd : Int) (e : Event) (d : SessionExt)
    (tr : List IOEvent) (hen : d.enabled = true) (hfile : d.file = none)
    (hc : capturedCall cfg f fd d e = true) (hok : e.fopen_ok = true) :
    ∃ p, capture cfg f fd e d tr = some p ∧ opens p.2 = opens tr + 1 ∧
      closes p.2 = closes tr ∧ p.1.file = some (nextStream tr) := by
  have key : ∀ (d0 : SessionExt) (buf : Nat → Nat) (len : Int) (isSend : Bool),
      d0.file = none →
      ∃ p, logged cfg e.fopen_ok e.clock d0 tr buf len isSend = some p ∧
        opens p.2 = opens tr + 1 ∧ closes p.2 = closes tr ∧
        p.1.file = some (nextStream tr) := by
    intro d0 buf len isSend h0
    refine ⟨({ d0 with file := some (nextStream tr) },
        (tr ++ headerEvents cfg e.clock (some (nextStream tr)))
          ++ packetEvents e.clock (some (nextStream tr)) buf len isSend),
      by simp [logged, h0, hok], ?_, ?_, rfl⟩
    · simp [opens_append, opens_packetEvents, opens_headerEvents]
    · simp [closes_append, closes_packetEvents, closes_headerEvents]
  unfold capture
  unfold capturedCall qualRead at hc
  rcases hcall : e.call with l | _ | len | _
  · simp [hcall] at hc
  · simp only [hcall, Bool.and_eq_true, decide_eq_true_eq, Bool.or_eq_true,
      Bool.not_eq_true'] at hc
    obtain ⟨⟨hv, hl⟩, ho⟩ := hc
    have hp := passes_false_of d (f fd e.host) hen hv hl
    have hno : (!d.triggered && optOut cfg (f fd e.host).2) = false := by
      rcases ho with ho | ho <;> simp [ho]
    simp only [hp, hno, Bool.false_eq_true, if_false]
    exact key _ _ _ _ hfile
  · simp only [hcall, Bool.and_eq_true, decide_eq_true_eq] at hc
    have hn : ¬ (len = 0 ∨ d.enabled = false ∨ e.host.validate = false) := by
      simp [hc.1, hc.2, hen]
    simp only [hn, if_false]
    exact key _ _ _ _ hfile
  · simp [hcall] at hc

/-- C3 fails on `reopenRun` (descriptor 5): after accept, write and close one
file has been created and closed and the record holds none; the next write
creates a second file, stream `1`. -/
theorem C3_counterexample :
    (run loginCfg 5 (freshWorld []) (reopenRun.take 3)).map
        (fun w => (opens w.trace, closes w.trace, (extOf w 5).map (fun d => d.file)))
      = some (1, 1, some none) ∧
    (run loginCfg 5 (freshWorld []) reopenRun).map
        (fun w => (opens w.trace, closes w.trace, (extOf w 5).map (fun d => d.file)))
      = some (2, 1, some (some 1)) :=
  ⟨rfl, rfl⟩

/-- C3, amended. For every sequence of hook calls on a connection: whenever the
calls return, a file has been created only while the record held none and closed
only while it held one, so the files created, plus one if a file was held at the
start, equal the files closed, plus one if a file is held at the end; the number
of files created is at most the number of files closed plus one, and at most one
as long as the close hook has closed none.  The calls do return when every
`fopen` succeeds.  The close hook on an enabled record that holds a stream closes
it, clears the handle and leaves capture enabled; and on an enabled record that
holds no stream, a captured read or pre-write creates a new file when `fopen`
succeeds. -/
theorem C3_files_created (cfg : Config) (fd : Int) (w : World) (es : List Event)
    (hwf : wellFormed w fd = true) :
    (∀ w1, run cfg fd w es = some w1 →
      opens w1.trace + closes w.trace + openNow w fd
        = opens w.trace + closes w1.trace + openNow w1 fd ∧
      opens w1.trace + closes w.trace ≤ opens w.trace + closes w1.trace + 1 ∧
      (closes w1.trace = closes w.trace → opens w1.trace ≤ opens w.trace + 1)) ∧
    ((∀ x ∈ es, x.fopen_ok = true) → ∃ w1, run cfg fd w es = some w1) ∧
    (∀ (w2 : World) (f : HostRecv) (d : SessionExt) (h : Nat) (e : Event),
      Attached w2 fd f d → d.enabled = true → d.file = some h → e.call = Call.close →
      ∃ w3, step cfg fd w2 e = some w3 ∧ closes w3.trace = closes w2.trace + 1 ∧
        opens w3.trace = opens w2.trace ∧ extOf w3 fd = some { d with file := none }) ∧
    (∀ (w2 : World) (f : HostRecv) (d : SessionExt) (e : Event),
      Attached w2 fd f d → d.enabled = true → d.file = none →
      capturedCall cfg f fd d e = true → e.fopen_ok = true →
      ∃ w3, step cfg fd w2 e = some w3 ∧ opens w3.trace = opens w2.trace + 1 ∧
        closes w3.trace = closes w2.trace ∧ openNow w3 fd = 1) := by
  have key : (∀ w1, run cfg fd w es = some w1 →
      opens w1.trace + closes w.trace + openNow w fd
        = opens w.trace + closes w1.trace + openNow w1 fd ∧
      closes w.trace ≤ closes w1.trace) ∧
      ((∀ x ∈ es, x.fopen_ok = true) → ∃ w1, run cfg fd w es = some w1) := by
    cases hv : session_is_valid w fd
    · obtain ⟨w1, h1, h2, h3⟩ := run_invalid cfg fd es w hv
      refine ⟨fun w2 hr => ?_, fun _ => ⟨w1, h1⟩⟩
      rw [h1] at hr
      cases hr
      constructor
      · simp [openNow, h2, h3]
      · rw [h2]
    · simp only [session_is_valid, Bool.and_eq_true, decide_eq_true_eq] at hv
      obtain ⟨hfd, hsome⟩ := hv
      cases hs : w.session fd with
      | none => simp [hs] at hsome
      | some s =>
        cases hd : s.hdata with
        | none =>
          cases hf : s.func_recv with
          | recv_func_proxy => simp [wellFormed, hs, hd, hf, RecvFn.isHost] at hwf
          | host f =>
            exact ⟨counts_detached cfg fd f es w ⟨hfd, s, hs, hd, hf⟩,
              returns_detached cfg fd f es w ⟨hfd, s, hs, hd, hf⟩⟩
        | some d =>
          cases hf : d.recv_func with
          | recv_func_proxy => simp [wellFormed, hs, hd, hf, RecvFn.isHost] at hwf
          | host f =>
            exact ⟨counts_attached cfg fd f es w d ⟨hfd, s, hs, hd, hf⟩,
              returns_attached cfg fd f es w d ⟨hfd, s, hs, hd, hf⟩⟩
  refine ⟨fun w1 hr => ?_, key.2, ?_, ?_⟩
  · obtain ⟨h2, h3⟩ := key.1 w1 hr
    have h4 := openNow_le_one w1 fd
    exact ⟨h2, by omega, fun h => by omega⟩
  · intro w2 f d h e hat hen hfile hcall
    rcases step_attached cfg w2 fd f d e hat with ⟨_, h2⟩ | ⟨w3, d3, h1, h2, h3⟩
    · simp [capture, hcall, hen, hfile] at h2
    · refine ⟨w3, h1, ?_, ?_, ?_⟩
      · simp only [capture, hcall, hen, hfile, Bool.true_eq_false, if_false,
          Option.some.injEq, Prod.mk.injEq] at h2
        rw [← h2.2]
        simp [closes_append, closes]
      · simp only [capture, hcall, hen, hfile, Bool.true_eq_false, if_false,
          Option.some.injEq, Prod.mk.injEq] at h2
        rw [← h2.2]
        simp [opens_append, opens, nextStream]
      · simp only [capture, hcall, hen, hfile, Bool.true_eq_false, if_false,
          Option.some.injEq, Prod.mk.injEq] at h2
        rw [extOf_attached w3 fd f d3 h3, ← h2.1]
        simp [hen]
  · intro w2 f d e hat hen hfile hc hok
    obtain ⟨p, hp, h5, h6, h7⟩ := capture_creates cfg f fd e d w2.trace hen hfile hc hok
    rcases step_attached cfg w2 fd f d e hat with ⟨_, h2⟩ | ⟨w3, d3, h1, h2, h3⟩
    · rw [hp] at h2; cases h2
    · rw [hp] at h2
      simp only [Option.some.injEq] at h2
      subst h2
      refine ⟨w3, h1, h5, h6, ?_⟩
      rw [openNow_attached w3 fd f d3 h3]
      simp only [holds]
      simp only at h7
      simp [h7]

/-- C3, amended, on the run `reopenRun` from a freshly accepted session, on the
close of a record that holds stream `0`, and on a write after that close. -/
theorem C3_files_created_witness :
    wellFormed (freshWorld []) 5 = true ∧
    (∃ w1, run loginCfg 5 (freshWorld []) reopenRun = some w1 ∧
      opens w1.trace + closes (freshWorld []).trace + openNow (freshWorld []) 5
        = opens (freshWorld []).trace + closes w1.trace + openNow w1 5 ∧
      opens w1.trace + closes (freshWorld []).trace
        ≤ opens (freshWorld []).trace + closes w1.trace + 1) ∧
    (∃ w3, step loginCfg 5 (worldWith (triggeredExt (RecvFn.host (readBytes []))) true)
          closeEvent = some w3 ∧
      closes w3.trace
        = closes (worldWith (triggeredExt (RecvFn.host (readBytes []))) true).trace + 1 ∧
      extOf w3 5 = some (closedExt (RecvFn.host (readBytes [])))) ∧
    (∃ w3, step loginCfg 5 (worldWith (closedExt (RecvFn.host (readBytes []))) true)
          writeEvent = some w3 ∧
      opens w3.trace
        = opens (worldWith (closedExt (RecvFn.host (readBytes []))) true).trace + 1 ∧
      openNow w3 5 = 1) :=
  have h := C3_files_created loginCfg 5 (freshWorld []) reopenRun rfl
  have hok : ∀ x ∈ reopenRun, x.fopen_ok = true := by
    intro x hx
    simp only [reopenRun, List.mem_cons, List.mem_singleton, List.mem_nil_iff, or_false] at hx
    rcases hx with rfl | rfl | rfl | rfl <;> rfl
  have hrun := h.2.1 hok
  have hclose := h.2.2.1 (worldWith (triggeredExt (RecvFn.host (readBytes []))) true)
    (readBytes []) (triggeredExt (RecvFn.host (readBytes []))) 0 closeEvent
    ⟨by decide, sessionWith (triggeredExt (RecvFn.host (readBytes []))), rfl, rfl, rfl⟩
    rfl rfl rfl
  have hopen := h.2.2.2 (worldWith (closedExt (RecvFn.host (readBytes []))) true)
    (readBytes []) (closedExt (RecvFn.host (readBytes []))) writeEvent
    ⟨by decide, sessionWith (closedExt (RecvFn.host (readBytes []))), rfl, rfl, rfl⟩
    rfl rfl rfl rfl
  ⟨rfl,
    hrun.elim fun w1 hr => ⟨w1, hr, (h.1 w1 hr).1, (h.1 w1 hr).2.1⟩,
    hclose.elim fun w3 h3 => ⟨w3, h3.1, h3.2.1, h3.2.2.2⟩,
    hopen.elim fun w3 h3 => ⟨w3, h3.1, h3.2.1, h3.2.2.2⟩⟩

/-! ## C10: the flags only move forward -/

/-- C10. The post-connect hook creates a record with `enabled = true`,
`triggered = false` and no file.  Every hook call on a connection that carries a
record leaves, when it returns, a record whose `triggered` is still true if it
was true and whose `enabled` is still false if it was false; and the call does
return when `fopen` succeeds or the record holds a stream. -/
theorem C10_flags_monotone (cfg : Config) (fd : Int) (w : World) (e : Event) (d : SessionExt)
    (f : HostRecv) (hd : extOf w fd = some d) (hf : d.recv_func = RecvFn.host f) :
    (∀ (w0 : World) (s0 : Session) (l : Int), session_is_valid w0 fd = true →
        w0.session fd = some s0 → s0.hdata = none →
        extOf (sockt_connect_client_post w0 fd l).2 fd
          = some { enabled := true, triggered := false, file := none,
                   recv_func := s0.func_recv }) ∧
    (∀ w1, step cfg fd w e = some w1 →
      ∃ d1, extOf w1 fd = some d1 ∧
        (d.triggered = true → d1.triggered = true) ∧
        (d.enabled = false → d1.enabled = false)) ∧
    (e.fopen_ok = true ∨ d.file.isSome = true → ∃ w1, step cfg fd w e = some w1) := by
  refine ⟨?_, ?_⟩
  · intro w0 s0 l hv hs hd0
    have hpos : ¬ (fd < 0) := by
      simp only [session_is_valid, Bool.and_eq_true, decide_eq_true_eq] at hv
      omega
    simp [sockt_connect_client_post, hpos, hv, hs, hd0, extOf, setSession]
  · cases hv : session_is_valid w fd
    · obtain ⟨w1, h1, _, _, h4⟩ := step_invalid cfg w fd e hv
      refine ⟨fun w2 hr => ?_, fun _ => ⟨w1, h1⟩⟩
      rw [h1] at hr
      have hw : w1 = w2 := Option.some.inj hr
      subst hw
      exact ⟨d, by rw [h4, hd], id, id⟩
    · simp only [session_is_valid, Bool.and_eq_true, decide_eq_true_eq] at hv
      obtain ⟨hfd, _⟩ := hv
      cases hs : w.session fd with
      | none => simp [extOf, hs] at hd
      | some s =>
        have hd1 : s.hdata = some d := by simpa [extOf, hs] using hd
        have hat : Attached w fd f d := ⟨hfd, s, hs, hd1, hf⟩
        constructor
        · intro w2 hr
          rcases step_attached cfg w fd f d e hat with ⟨h1, _⟩ | ⟨w1, d1, h1, h2, h3⟩
          · rw [h1] at hr; cases hr
          · rw [h1] at hr
            have hw : w1 = w2 := Option.some.inj hr
            subst hw
            have hfl := capture_flags cfg f fd e d w.trace _ h2
            exact ⟨d1, extOf_attached w1 fd f d1 h3, hfl.1, hfl.2⟩
        · intro hok
          obtain ⟨p, hp⟩ := capture_returns cfg f fd e d w.trace hok
          rcases step_attached cfg w fd f d e hat with ⟨_, h2⟩ | ⟨w1, _, h1, _, _⟩
          · rw [hp] at h2; cases h2
          · exact ⟨w1, h1⟩

/-- C10 on three inputs: the post-connect hook on a freshly accepted session; a
read on a triggered record, after which `triggered` is still true; a pre-write
on a disabled record, after which `enabled` is still false. -/
theorem C10_flags_monotone_witness :
    extOf (sockt_connect_client_post (freshWorld []) 5 3).2 5
      = some { enabled := true, triggered := false, file := none,
               recv_func := RecvFn.host (readBytes []) } ∧
    (∃ w1 d1, step loginCfg 5
          (worldWith (triggeredExt (RecvFn.host (readBytes [0x01, 0x02]))) true) readEvent
          = some w1 ∧
      extOf w1 5 = some d1 ∧ d1.triggered = true) ∧
    (∃ w1 d1, step loginCfg 5
          (worldWith (disabledExt (RecvFn.host (readBytes [0x01, 0x02]))) true) writeEvent
          = some w1 ∧
      extOf w1 5 = some d1 ∧ d1.enabled = false) :=
  have hT := C10_flags_monotone loginCfg 5
    (worldWith (triggeredExt (RecvFn.host (readBytes [0x01, 0x02]))) true) readEvent
    (triggeredExt (RecvFn.host (readBytes [0x01, 0x02]))) (readBytes [0x01, 0x02]) rfl rfl
  have hD := C10_flags_monotone loginCfg 5
    (worldWith (disabledExt (RecvFn.host (readBytes [0x01, 0x02]))) true) writeEvent
    (disabledExt (RecvFn.host (readBytes [0x01, 0x02]))) (readBytes [0x01, 0x02]) rfl rfl
  ⟨hT.1 (freshWorld []) (freshSession []) 3 rfl rfl rfl,
    (hT.2.2 (Or.inl rfl)).elim fun w1 hr =>
      (hT.2.1 w1 hr).elim fun d1 h1 => ⟨w1, d1, hr, h1.1, h1.2.1 rfl⟩,
    (hD.2.2 (Or.inl rfl)).elim fun w1 hr =>
      (hD.2.1 w1 hr).elim fun d1 h1 => ⟨w1, d1, hr, h1.1, h1.2.2 rfl⟩⟩

/-! ## C2: the opt-out packet -/

theorem forwarded_eq_lastBytes (h : HostData) (len : Int) (h0 : 0 ≤ len)
    (h1 : len ≤ (h.rdata_size : Int)) :
    forwarded h len = lastBytes len.toNat (recvBuffer h) := by
  obtain ⟨n, rfl⟩ := Int.eq_ofNat_of_zero_le h0
  have hn : n ≤ h.rdata_size := by exact_mod_cast h1
  unfold forwarded lastBytes recvBuffer memAt
  simp only [Int.toNat_ofNat, List.length_map, List.length_range]
  apply List.ext_getElem
  · simp only [List.length_map, List.length_range, List.length_drop]
    omega
  · intro i hi1 hi2
    simp only [List.length_map, List.length_range] at hi1
    have hc : ((h.rdata_size - n + i : Nat) : Int) = (h.rdata_size : Int) - (n : Int) + (i : Int) := by
      omega
    simp only [List.getElem_map, List.getElem_range, List.getElem_drop, hc]

/-- Before the first validated read of positive length the record stays enabled
and untriggered. -/
theorem capture_untriggered (cfg : Config) (f : HostRecv) (fd : Int) (e : Event)
    (d : SessionExt) (tr : List IOEvent) (p : SessionExt × List IOEvent)
    (hq : qualRead f fd e = false) (h : d.enabled = true ∧ d.triggered = false)
    (hc : capture cfg f fd e d tr = some p) :
    p.1.enabled = true ∧ p.1.triggered = false := by
  unfold capture at hc
  unfold qualRead at hq
  rcases hcall : e.call with l | _ | len | _
  · simp only [hcall, Option.some.injEq] at hc
    subst hc
    exact h
  · simp only [hcall, Bool.and_eq_false_iff, decide_eq_false_iff_not] at hq
    have hp : passes d (f fd e.host) = true := by
      unfold passes
      rcases hq with hq | hq
      · simp [hq]
      · have : (f fd e.host).1 ≤ 0 := by omega
        simp [this]
    simp only [hcall, hp, if_true, Option.some.injEq] at hc
    subst hc
    exact h
  · simp only [hcall] at hc
    split_ifs at hc
    · simp only [Option.some.injEq] at hc
      subst hc
      exact h
    · have hfl := logged_flags _ _ _ _ _ _ _ _ p hc
      rw [hfl.1, hfl.2.1]
      exact h
  · simp only [hcall] at hc
    split_ifs at hc
    · simp only [Option.some.injEq] at hc
      subst hc
      exact h
    · split at hc <;>
      · simp only [Option.some.injEq] at hc
        subst hc
        exact h

theorem captures_untriggered (cfg : Config) (f : HostRecv) (fd : Int) (es : List Event) :
    ∀ (d : SessionExt) (tr : List IOEvent) (p : SessionExt × List IOEvent),
      (∀ x ∈ es, qualRead f fd x = false) → d.enabled = true ∧ d.triggered = false →
      captures cfg f fd es (d, tr) = some p →
      p.1.enabled = true ∧ p.1.triggered = false := by
  induction es with
  | nil =>
    intro d tr p _ h hc
    simp only [captures, Option.some.injEq] at hc
    subst hc
    exact h
  | cons e es ih =>
    intro d tr p hq h hc
    simp only [captures] at hc
    cases hc1 : capture cfg f fd e d tr with
    | none => simp [hc1] at hc
    | some q =>
      rw [hc1, Option.some_bind] at hc
      have h1 := capture_untriggered cfg f fd e d tr q (hq e (List.mem_cons_self _ _)) h hc1
      exact ih q.1 q.2 p (fun x hx => hq x (List.mem_cons_of_mem _ hx)) h1 hc

/-- From a freshly accepted session, when the post-connect hook followed by
calls among which no read is validated with a positive length have returned,
the connection is instrumented and its record is enabled and untriggered. -/
theorem run_fresh (cfg : Config) (fd : Int) (f : HostRecv) (w0 w1 : World) (c0 : Event)
    (pre : List Event) (l : Int) (h0 : Detached w0 fd f)
    (hc0 : c0.call = Call.connect_client_post l)
    (hpre : ∀ x ∈ pre, qualRead f fd x = false)
    (hrun : run cfg fd w0 (c0 :: pre) = some w1) :
    ∃ d1, Attached w1 fd f d1 ∧ d1.enabled = true ∧ d1.triggered = false := by
  obtain ⟨wa, h1, _, h3⟩ := step_detached cfg w0 fd f c0 h0
  simp only [run, h1, Option.some_bind] at hrun
  rcases h3 with ⟨_, ha⟩ | ⟨hno, _⟩
  · rcases run_attached cfg fd f pre wa _ ha with ⟨h4, _⟩ | ⟨w2, d2, h4, h5, h6⟩
    · rw [h4] at hrun; cases hrun
    · rw [h4] at hrun
      have hw : w2 = w1 := Option.some.inj hrun
      subst hw
      have h7 := captures_untriggered cfg f fd pre (freshExt (RecvFn.host f)) wa.trace _ hpre
        ⟨rfl, rfl⟩ h5
      exact ⟨d2, h6, h7.1, h7.2⟩
  · exact absurd hc0 (hno l)

theorem capture_optOut (cfg : Config) (f : HostRecv) (fd : Int) (e : Event)
    (d : SessionExt) (tr : List IOEvent) (hq : qualRead f fd e = true)
    (h : d.enabled = true ∧ d.triggered = false) (ho : optOut cfg (f fd e.host).2 = true) :
    capture cfg f fd e d tr = some ({ d with enabled := false }, tr) := by
  unfold capture
  unfold qualRead at hq
  rcases hcall : e.call with l | _ | len | _
  · simp [hcall] at hq
  · simp only [hcall, Bool.and_eq_true, decide_eq_true_eq] at hq
    have hp := passes_false_of d (f fd e.host) h.1 hq.1 hq.2
    simp [hp, h.2, ho]
  · simp [hcall] at hq
  · simp [hcall] at hq

theorem RFIFOW_eq_wordAt (h : HostData) : RFIFOW h 0 = wordAt h.rdata h.rdata_pos := by
  simp [RFIFOW, RFIFOP, memAt, wordAt]

/-- When the read starts at the read position and has at least two bytes, the
word the wrapper compares is made of the first two bytes forwarded to the
logger. -/
theorem RFIFOW_forwarded (h : HostData) (len : Int)
    (halign : (h.rdata_pos : Int) = (h.rdata_size : Int) - len) (h2 : 2 ≤ len) :
    RFIFOW h 0 = (forwarded h len).getD 0 0 + 256 * (forwarded h len).getD 1 0 := by
  have hn : 2 ≤ len.toNat := by omega
  have e0 : (forwarded h len).getD 0 0 = h.rdata ((h.rdata_size : Int) - len) % 256 := by
    unfold forwarded
    rw [List.getD_eq_getElem _ _ (by simp; omega)]
    simp [memAt]
  have e1 : (forwarded h len).getD 1 0 = h.rdata ((h.rdata_size : Int) - len + 1) % 256 := by
    unfold forwarded
    rw [List.getD_eq_getElem _ _ (by simp; omega)]
    simp [memAt]
  rw [RFIFOW_eq_wordAt, e0, e1, halign]
  rfl

/-- The bytes of a read begin with the two bytes of `code`, low byte first. -/
theorem optOut_of_begins (cfg : Config) (h : HostData) (len : Int) (code : Nat)
    (halign : (h.rdata_pos : Int) = (h.rdata_size : Int) - len)
    (hb : (lastBytes len.toNat (recvBuffer h)).take 2 = [code % 256, code / 256])
    (hlen : 0 < len) (hcode : code < 65536) : RFIFOW h 0 = code := by
  have hle : len ≤ (h.rdata_size : Int) := by omega
  rw [← forwarded_eq_lastBytes h len (by omega) hle] at hb
  have hlen2 : 2 ≤ len := by
    by_contra hcon
    have h1 : len.toNat = 1 := by omega
    have : ((forwarded h len).take 2).length = 2 := by rw [hb]; rfl
    simp [forwarded, h1] at this
  have hn : 2 ≤ len.toNat := by omega
  have hl : 2 ≤ (forwarded h len).length := by simp [forwarded]; omega
  have e0 : (forwarded h len).getD 0 0 = code % 256 := by
    have := congrArg (fun l => l.getD 0 0) hb
    simpa [List.getD_eq_getElem?_getD, List.getElem?_take] using this
  have e1 : (forwarded h len).getD 1 0 = code / 256 := by
    have := congrArg (fun l => l.getD 1 0) hb
    simpa [List.getD_eq_getElem?_getD, List.getElem?_take] using this
  rw [RFIFOW_forwarded h len halign hlen2, e0, e1]
  omega

/-- C2 fails on `staleRun [01, 02]` (login server, descriptor 5): the read on the
not yet validated session leaves `01 02` unconsumed, so the first validated read
of positive length, whose bytes are exactly the opt-out code `10 27`, does not
start at the read position; the wrapper compares `0x0201`, creates the file,
logs `1027` and leaves capture enabled. -/
theorem C2_counterexample :
    qualRead (readFirstThen [0x01, 0x02] [0x10, 0x27]) 5 unvalidatedReadEvent = false ∧
    qualRead (readFirstThen [0x01, 0x02] [0x10, 0x27]) 5
        (eventOn (hostWith [0x01, 0x02] []) Call.recv) = true ∧
    payloadOf (readFirstThen [0x01, 0x02] [0x10, 0x27]) 5
        (eventOn (hostWith [0x01, 0x02] []) Call.recv) = [0x10, 0x27] ∧
    (run loginCfg 5 (freshWorldOf (readFirstThen [0x01, 0x02] [0x10, 0x27]))
        (staleRun [0x01, 0x02])).map
        (fun w => (opens w.trace, (extOf w 5).map (fun d => (d.enabled, d.triggered, d.file)),
          fileText w.trace (some 0)))
      = some (1, some (true, true, some 0),
          "#format 2\n#packetversion 20200101 main\n#time 1600000000\n"
            ++ "#time 1600000000.123456\n5353\n1027\n") :=
  ⟨rfl, rfl, rfl, rfl⟩

/-- C2, amended. Take a freshly accepted session (no capture record, host read
function `f`), the post-connect hook `c0`, then any calls `pre` among which no
read is validated with a positive length, all of which have returned, then a
validated read `e` of positive length that starts at the read position
(`rdata_pos = rdata_size - len`) and whose bytes begin with the opt-out code of
the role (`10 27` on login, `f8 2a` on char), then any calls `later`.  The read
`e` returns, opens no file, writes nothing and leaves capture disabled; and all
calls of `later` return, after which the trace is still the same and capture is
still disabled. -/
theorem C2_opt_out (cfg : Config) (fd : Int) (f : HostRecv) (w0 w1 : World) (s0 : Session)
    (c0 e : Event) (pre later : List Event) (l : Int)
    (hfd : 0 < fd) (hs : w0.session fd = some s0) (hd : s0.hdata = none)
    (hf : s0.func_recv = RecvFn.host f)
    (hc0 : c0.call = Call.connect_client_post l)
    (hpre : ∀ x ∈ pre, qualRead f fd x = false)
    (hrun : run cfg fd w0 (c0 :: pre) = some w1)
    (he : qualRead f fd e = true)
    (halign : ((f fd e.host).2.rdata_pos : Int)
      = ((f fd e.host).2.rdata_size : Int) - (f fd e.host).1)
    (hb : (cfg.SERVER_TYPE = ServerType.LOGIN ∧ (payloadOf f fd e).take 2 = [0x10, 0x27]) ∨
      (cfg.SERVER_TYPE = ServerType.CHAR ∧ (payloadOf f fd e).take 2 = [0xf8, 0x2a])) :
    ∃ w2 w3, step cfg fd w1 e = some w2 ∧ run cfg fd w2 later = some w3 ∧
      w2.trace = w1.trace ∧ (extOf w2 fd).map (fun d => d.enabled) = some false ∧
      w3.trace = w1.trace ∧ (extOf w3 fd).map (fun d => d.enabled) = some false := by
  have hcall : e.call = Call.recv ∧ 0 < (f fd e.host).1 := by
    unfold qualRead at he
    rcases hc : e.call with l | _ | len | _ <;> simp [hc] at he
    exact ⟨rfl, he.2⟩
  have hpay : payloadOf f fd e
      = lastBytes (f fd e.host).1.toNat (recvBuffer (f fd e.host).2) := by
    simp [payloadOf, hcall.1]
  have ho1 : optOut cfg (f fd e.host).2 = true := by
    unfold optOut
    rcases hb with ⟨h1, h2⟩ | ⟨h1, h2⟩
    · rw [hpay] at h2
      have := optOut_of_begins cfg (f fd e.host).2 (f fd e.host).1 0x2710 halign h2 hcall.2
        (by decide)
      simp [h1, this]
    · rw [hpay] at h2
      have := optOut_of_begins cfg (f fd e.host).2 (f fd e.host).1 0x2af8 halign h2 hcall.2
        (by decide)
      simp [h1, this]
  obtain ⟨d1, h2, h3, h4⟩ := run_fresh cfg fd f w0 w1 c0 pre l ⟨hfd, s0, hs, hd, hf⟩ hc0 hpre hrun
  have hcap := capture_optOut cfg f fd e d1 w1.trace he ⟨h3, h4⟩ ho1
  rcases step_attached cfg w1 fd f d1 e h2 with ⟨_, h6⟩ | ⟨w2, d2, h5, h6, h7⟩
  · rw [hcap] at h6; cases h6
  · rw [hcap] at h6
    simp only [Option.some.injEq, Prod.mk.injEq] at h6
    obtain ⟨h6a, h6b⟩ := h6
    subst h6a
    have hdis := captures_disabled cfg f fd later { d1 with enabled := false } w2.trace rfl
    rcases run_attached cfg fd f later w2 _ h7 with ⟨_, h9⟩ | ⟨w3, d3, h8, h9, h10⟩
    · rw [hdis] at h9; cases h9
    · rw [hdis] at h9
      simp only [Option.some.injEq, Prod.mk.injEq] at h9
      obtain ⟨h9a, h9b⟩ := h9
      subst h9a
      refine ⟨w2, w3, h5, h8, h6b.symm, ?_, ?_, ?_⟩
      · rw [extOf_attached w2 fd f _ h7]; rfl
      · rw [← h9b]; exact h6b.symm
      · rw [extOf_attached w3 fd f _ h10]; rfl

/-- C2, amended, on a login server: accept, a write, the opt-out packet `10 27`
as first read into the empty buffer, then a write, a read and a close. -/
theorem C2_opt_out_witness :
    (∀ x ∈ [writeEvent], qualRead (readBytes [0x10, 0x27]) 5 x = false) ∧
    qualRead (readBytes [0x10, 0x27]) 5 readEvent = true ∧
    ((readBytes [0x10, 0x27] 5 readEvent.host).2.rdata_pos : Int)
      = ((readBytes [0x10, 0x27] 5 readEvent.host).2.rdata_size : Int)
        - (readBytes [0x10, 0x27] 5 readEvent.host).1 ∧
    (payloadOf (readBytes [0x10, 0x27]) 5 readEvent).take 2 = [0x10, 0x27] ∧
    ∃ w1 w2 w3,
      run loginCfg 5 (freshWorld [0x10, 0x27]) (connectEvent :: [writeEvent]) = some w1 ∧
      step loginCfg 5 w1 readEvent = some w2 ∧
      run loginCfg 5 w2 [writeEvent, readEvent, closeEvent] = some w3 ∧
      w2.trace = w1.trace ∧ (extOf w2 5).map (fun d => d.enabled) = some false ∧
      w3.trace = w1.trace ∧ (extOf w3 5).map (fun d => d.enabled) = some false :=
  have h1 : ∀ x ∈ [writeEvent], qualRead (readBytes [0x10, 0x27]) 5 x = false := by
    intro x hx
    rw [List.mem_singleton.1 hx]
    rfl
  have hsome : (run loginCfg 5 (freshWorld [0x10, 0x27])
      (connectEvent :: [writeEvent])).isSome = true := rfl
  have hrun := (Option.some_get hsome).symm
  have h := C2_opt_out loginCfg 5 (readBytes [0x10, 0x27]) (freshWorld [0x10, 0x27])
      (Option.get _ hsome) (freshSession [0x10, 0x27]) connectEvent readEvent [writeEvent]
      [writeEvent, readEvent, closeEvent] 3 (by decide) rfl rfl rfl rfl h1 hrun rfl rfl
      (Or.inl ⟨rfl, rfl⟩)
  ⟨h1, rfl, rfl, rfl, Option.get _ hsome, h.elim fun w2 h2 => h2.elim fun w3 h3 =>
    ⟨w2, w3, hrun, h3⟩⟩

/-! ## C4: one record per captured call, in call order -/

/-- The scenario of the specification on a login server: the connection is
accepted, the first read delivers `01 02 03 04`, then `AB CD` is written out.
The log file holds the header, the record `5353` / `01020304` and the record
`5252` / `abcd`, and is still open. -/
theorem scenario_read_then_write :
    (run loginCfg 5 (freshWorld [0x01, 0x02, 0x03, 0x04])
        [connectEvent, readEvent, writeEvent]).map
        (fun w => (fileText w.trace (some 0), opens w.trace, closes w.trace,
          (extOf w 5).map (fun d => (d.enabled, d.triggered, d.file))))
      = some ("#format 2\n#packetversion 20200101 main\n#time 1600000000\n"
          ++ "#time 1600000000.123456\n5353\n01020304\n"
          ++ "#time 1600000000.123456\n5252\nabcd\n", 1, 0, some (true, true, some 0)) :=
  rfl

/-! ## C9: which bytes the wrapper compares with the opt-out code -/

theorem open_file_returns (cfg : Config) (w : World) (d : SessionExt)
    (h : w.fopen_ok = true ∨ d.file.isSome = true) : ∃ r, open_file cfg w d = some r := by
  unfold open_file
  cases hf : d.file with
  | some x => exact ⟨_, rfl⟩
  | none =>
    rcases h with h | h
    · simp [h]
    · simp [hf] at h

theorem open_file_fails (cfg : Config) (w : World) (d : SessionExt)
    (hok : w.fopen_ok = false) (hf : d.file = none) : open_file cfg w d = none := by
  simp [open_file, hf, hok]

/-- Whatever word a macro computes from the host fields alone, it cannot be
the word at offset `rdata_size - len` for every `len`: the same receive buffer
`01 02 10 27` is the result of a read of two bytes and of a read of four. -/
theorem no_word_follows_len (W : HostData → Nat) :
    ¬ ∀ (h : HostData) (len : Nat), 0 < len → len ≤ h.rdata_size →
        W h = wordAt h.rdata ((h.rdata_size : Int) - len) := by
  intro hall
  have h2 := hall (hostWith [0x01, 0x02, 0x10, 0x27] []) 2 (by decide) (by decide)
  have h4 := hall (hostWith [0x01, 0x02, 0x10, 0x27] []) 4 (by decide) (by decide)
  rw [h2] at h4
  revert h4
  decide

/-- C9 fails on `staleWorld` (login server): the read returns `len = 2`, the
two new bytes at offsets `rdata_size - len` and `rdata_size - len + 1` are
`10 27`, that is the opt-out code `0x2710`, but the word the wrapper compares is
`0x0201`, read at `rdata_pos`; capture stays enabled, is triggered, and the read
is logged. -/
theorem C9_counterexample :
    (readBytes [0x10, 0x27] 5 (hostWith [0x01, 0x02] [])).1 = 2 ∧
    wordAt (readBytes [0x10, 0x27] 5 (hostWith [0x01, 0x02] [])).2.rdata
        (((readBytes [0x10, 0x27] 5 (hostWith [0x01, 0x02] [])).2.rdata_size : Int) - 2)
      = 0x2710 ∧
    RFIFOW (readBytes [0x10, 0x27] 5 (hostWith [0x01, 0x02] [])).2 0 = 0x0201 ∧
    (recv_func_proxy loginCfg staleWorld 5).map
        (fun p => (p.1, (extOf p.2 5).map (fun d => (d.enabled, d.triggered, d.file)),
          fileText p.2.trace (some 0)))
      = some (2, some (true, true, some 0),
          "#format 2\n#packetversion 20200101 main\n#time 1600000000\n"
            ++ "#time 1600000000.123456\n5353\n1027\n") :=
  ⟨rfl, rfl, rfl, rfl⟩

/-- C9, amended. On an enabled, validated, not yet triggered read that returns
`len > 0`, the word the wrapper compares with the opt-out code is the
little-endian word made of the bytes at offsets `rdata_pos` and `rdata_pos + 1`
of the receive buffer.  When that word is the opt-out code of the role the
wrapper returns `len`, writes nothing and disables capture; when it is not, the
wrapper returns `len` with capture enabled and triggered if the record holds a
stream or `fopen` succeeds, and does not return otherwise.  When the read
position `rdata_pos` is `rdata_size - len` and `len ≥ 2`, the compared word is
made of the first two of the `len` bytes forwarded to the logger. -/
theorem C9_discriminator (cfg : Config) (w : World) (fd : Int) (s : Session)
    (d : SessionExt) (f : HostRecv)
    (hv : session_is_valid w fd = true) (hs : w.session fd = some s)
    (hd : s.hdata = some d) (hf : d.recv_func = RecvFn.host f)
    (hen : d.enabled = true) (ht : d.triggered = false)
    (hval : (f fd s.host).2.validate = true) (hlen : 0 < (f fd s.host).1) :
    RFIFOW (f fd s.host).2 0
      = (f fd s.host).2.rdata (f fd s.host).2.rdata_pos % 256
        + 256 * ((f fd s.host).2.rdata ((f fd s.host).2.rdata_pos + 1) % 256) ∧
    (((cfg.SERVER_TYPE = ServerType.LOGIN ∧
          wordAt (f fd s.host).2.rdata (f fd s.host).2.rdata_pos = 0x2710) ∨
        (cfg.SERVER_TYPE = ServerType.CHAR ∧
          wordAt (f fd s.host).2.rdata (f fd s.host).2.rdata_pos = 0x2af8)) →
      ∃ w1, recv_func_proxy cfg w fd = some ((f fd s.host).1, w1) ∧
        (extOf w1 fd).map (fun x => x.enabled) = some false ∧ w1.trace = w.trace) ∧
    (¬ ((cfg.SERVER_TYPE = ServerType.LOGIN ∧
          wordAt (f fd s.host).2.rdata (f fd s.host).2.rdata_pos = 0x2710) ∨
        (cfg.SERVER_TYPE = ServerType.CHAR ∧
          wordAt (f fd s.host).2.rdata (f fd s.host).2.rdata_pos = 0x2af8)) →
      ((w.fopen_ok = true ∨ d.file.isSome = true) →
        ∃ w1, recv_func_proxy cfg w fd = some ((f fd s.host).1, w1) ∧
          (extOf w1 fd).map (fun x => (x.enabled, x.triggered)) = some (true, true)) ∧
      (w.fopen_ok = false → d.file = none → recv_func_proxy cfg w fd = none)) ∧
    (((f fd s.host).2.rdata_pos : Int)
        = ((f fd s.host).2.rdata_size : Int) - (f fd s.host).1 →
      2 ≤ (f fd s.host).1 →
      wordAt (f fd s.host).2.rdata (f fd s.host).2.rdata_pos
        = (forwarded (f fd s.host).2 (f fd s.host).1).getD 0 0
          + 256 * (forwarded (f fd s.host).2 (f fd s.host).1).getD 1 0) := by
  have hp := passes_false_of d (f fd s.host) hen hval hlen
  have hiff : optOut cfg (f fd s.host).2 = true ↔
      (cfg.SERVER_TYPE = ServerType.LOGIN ∧
          wordAt (f fd s.host).2.rdata (f fd s.host).2.rdata_pos = 0x2710) ∨
      (cfg.SERVER_TYPE = ServerType.CHAR ∧
          wordAt (f fd s.host).2.rdata (f fd s.host).2.rdata_pos = 0x2af8) := by
    simp [optOut, RFIFOW_eq_wordAt]
  refine ⟨by simp [RFIFOW, RFIFOP, memAt], ?_, ?_, ?_⟩
  · intro hopt
    have ho := hiff.2 hopt
    refine ⟨_, recv_optOut cfg w fd s d f hv hs hd hf hp ht ho, ?_, rfl⟩
    rw [extOf_setSession_self]
    rfl
  · intro hopt
    have ho : optOut cfg (f fd s.host).2 = false := by
      cases h : optOut cfg (f fd s.host).2
      · rfl
      · exact absurd (hiff.1 h) hopt
    have hr := recv_log cfg w fd s d f hv hs hd hf hp (Or.inr ho)
    constructor
    · intro hok
      obtain ⟨r, hopen⟩ := open_file_returns cfg
        (setSession w fd { s with host := (f fd s.host).2 }) { d with triggered := true } hok
      have hos := open_file_session cfg _ _ r hopen
      rw [hopen] at hr
      refine ⟨_, hr, ?_⟩
      rw [extOf_setSession_self]
      simp [hos.2.2.1, hos.2.2.2, hen]
    · intro hok hfile
      have hfail := open_file_fails cfg (setSession w fd { s with host := (f fd s.host).2 })
        { d with triggered := true } hok hfile
      rw [hfail] at hr
      exact hr
  · intro halign h2
    rw [← RFIFOW_eq_wordAt]
    exact RFIFOW_forwarded _ _ halign h2

/-- C9, amended, on two inputs (login server): a read of `10 27` into the empty
buffer, which starts at the read position, is an opt-out and the compared word
is made of the two forwarded bytes; and `staleWorld`, where the compared word
`0x0201` is not the opt-out code and the read is captured. -/
theorem C9_discriminator_witness :
    (∃ w1, recv_func_proxy loginCfg
          (worldWith (freshExt (RecvFn.host (readBytes [0x10, 0x27]))) true) 5
        = some (2, w1) ∧
      (extOf w1 5).map (fun x => x.enabled) = some false) ∧
    (wordAt (readBytes [0x10, 0x27] 5 (hostWith [] [])).2.rdata
        (readBytes [0x10, 0x27] 5 (hostWith [] [])).2.rdata_pos
      = (forwarded (readBytes [0x10, 0x27] 5 (hostWith [] [])).2 2).getD 0 0
        + 256 * (forwarded (readBytes [0x10, 0x27] 5 (hostWith [] [])).2 2).getD 1 0 ∧
      forwarded (readBytes [0x10, 0x27] 5 (hostWith [] [])).2 2 = [0x10, 0x27]) ∧
    (∃ w1, recv_func_proxy loginCfg staleWorld 5 = some (2, w1) ∧
      (extOf w1 5).map (fun x => (x.enabled, x.triggered)) = some (true, true)) :=
  have hA := C9_discriminator loginCfg
    (worldWith (freshExt (RecvFn.host (readBytes [0x10, 0x27]))) true) 5
    (sessionWith (freshExt (RecvFn.host (readBytes [0x10, 0x27]))))
    (freshExt (RecvFn.host (readBytes [0x10, 0x27]))) (readBytes [0x10, 0x27])
    rfl rfl rfl rfl rfl rfl rfl (by decide)
  have hB := C9_discriminator loginCfg staleWorld 5 staleSession
    (freshExt (RecvFn.host (readBytes [0x10, 0x27]))) (readBytes [0x10, 0x27])
    rfl rfl rfl rfl rfl rfl rfl (by decide)
  ⟨(hA.2.1 (Or.inl ⟨rfl, rfl⟩)).elim fun w1 h => ⟨w1, h.1, h.2.1⟩,
    ⟨hA.2.2.2 rfl (by decide), rfl⟩,
    (hB.2.2.1 (by decide)).1 (Or.inl rfl)⟩

/-! ## C1: the read wrapper and a failing `fopen` -/

/-- On a valid connection with a capture record whose saved read function is
the host function `f`: whenever the wrapper returns, it returns what `f`
returns; it does return when the read is not captured, or the record holds a
stream, or `fopen` succeeds; and when the read failed, or capture is disabled,
or the connection is not validated, the capture record, the trace and the
console are as before. -/
theorem recv_returns_original (cfg : Config) (w : World) (fd : Int) (s : Session)
    (d : SessionExt) (f : HostRecv)
    (hfd : session_is_valid w fd = true) (hs : w.session fd = some s)
    (hd : s.hdata = some d) (hf : d.recv_func = RecvFn.host f) :
    (∀ p, recv_func_proxy cfg w fd = some p → p.1 = (f fd s.host).1) ∧
    ((w.fopen_ok = true ∨ d.file.isSome = true) →
      ∃ w1, recv_func_proxy cfg w fd = some ((f fd s.host).1, w1)) ∧
    (((f fd s.host).1 ≤ 0 ∨ d.enabled = false ∨ (f fd s.host).2.validate = false) →
      ∃ w1, recv_func_proxy cfg w fd = some ((f fd s.host).1, w1) ∧
        extOf w1 fd = some d ∧ w1.trace = w.trace ∧ w1.console = w.console ∧
        w1.session fd = some { s with host := (f fd s.host).2 }) := by
  have hlogcase : ∀ (ho : d.triggered = true ∨ optOut cfg (f fd s.host).2 = false)
      (hp : passes d (f fd s.host) = false),
      (∀ p, recv_func_proxy cfg w fd = some p → p.1 = (f fd s.host).1) ∧
      ((w.fopen_ok = true ∨ d.file.isSome = true) →
        ∃ w1, recv_func_proxy cfg w fd = some ((f fd s.host).1, w1)) := by
    intro ho hp
    have hr := recv_log cfg w fd s d f hfd hs hd hf hp ho
    constructor
    · intro p hpp
      rw [hr] at hpp
      cases hopen : open_file cfg (setSession w fd { s with host := (f fd s.host).2 })
        { d with triggered := true } with
      | none => rw [hopen] at hpp; cases hpp
      | some r =>
        rw [hopen] at hpp
        simp only [Option.map_some', Option.some.injEq] at hpp
        rw [← hpp]
    · intro hok
      obtain ⟨r, hopen⟩ := open_file_returns cfg
        (setSession w fd { s with host := (f fd s.host).2 }) { d with triggered := true } hok
      rw [hopen] at hr
      exact ⟨_, hr⟩
  cases hp : passes d (f fd s.host)
  · have hp2 := hp
    simp only [passes, Bool.or_eq_false_iff, decide_eq_false_iff_not, Bool.not_eq_false'] at hp2
    obtain ⟨⟨h1, h2⟩, h3⟩ := hp2
    have hno : ¬ ((f fd s.host).1 ≤ 0 ∨ d.enabled = false ∨ (f fd s.host).2.validate = false) := by
      simp [h1, h2, h3]
    cases ht : d.triggered
    · cases ho : optOut cfg (f fd s.host).2
      · exact ⟨(hlogcase (Or.inr ho) hp).1, (hlogcase (Or.inr ho) hp).2,
          fun hc => absurd hc hno⟩
      · have hr := recv_optOut cfg w fd s d f hfd hs hd hf hp ht ho
        refine ⟨fun p hpp => ?_, fun _ => ⟨_, hr⟩, fun hc => absurd hc hno⟩
        rw [hr] at hpp
        simp only [Option.some.injEq] at hpp
        rw [← hpp]
    · exact ⟨(hlogcase (Or.inl ht) hp).1, (hlogcase (Or.inl ht) hp).2,
        fun hc => absurd hc hno⟩
  · have hr := recv_early cfg w fd s d f hfd hs hd hf hp
    refine ⟨fun p hpp => ?_, fun _ => ⟨_, hr⟩, fun _ => ⟨_, hr, ?_⟩⟩
    · rw [hr] at hpp
      simp only [Option.some.injEq] at hpp
      rw [← hpp]
    · simp [extOf, setSession, hd]

/-- C1 fails on a login server when `fopen` fails: session `5` is valid,
validated and instrumented with a fresh record (enabled, no file), the saved
read function returns `2` after receiving `01 02`, and the wrapper, which has to
create the log file, does not return. -/
theorem C1_open_failure :
    session_is_valid (worldWith (freshExt (RecvFn.host (readBytes [0x01, 0x02]))) false) 5
      = true ∧
    extOf (worldWith (freshExt (RecvFn.host (readBytes [0x01, 0x02]))) false) 5
      = some (freshExt (RecvFn.host (readBytes [0x01, 0x02]))) ∧
    (readBytes [0x01, 0x02] 5 (hostWith [] [])).1 = 2 ∧
    (readBytes [0x01, 0x02] 5 (hostWith [] [])).2.validate = true ∧
    (recv_func_proxy loginCfg
      (worldWith (freshExt (RecvFn.host (readBytes [0x01, 0x02]))) false) 5).isSome = false :=
  ⟨rfl, rfl, rfl, rfl, rfl⟩

end PacketLogger2
